import Mathlib

/-!
# Verification of `oemof_b3/tools/data_processing.py`

This file gives a shallow embedding of the data-processing layer of the
repository (schema registry, stacker/unstacker, filter/aggregate engine and
the region-inference step of the time-series loader) and proves, or refutes,
the specification claims about it.

Modelling conventions:

* Timestamps and frequency steps are modelled as `Int` (a timestamp is its
  offset on an abstract clock; a pandas frequency alias such as `"H"` is the
  corresponding step).  `pd.date_range(start, stop, freq)` becomes
  `dateRange`, and `pd.infer_freq` becomes `inferFreq`, which mirrors the
  library contract: it needs at least three timestamps (else it raises), and
  otherwise reports the constant nonzero step of the index if there is one.
* Numeric cell values are modelled as `Int` (exact arithmetic).
* A missing cell (Python `None`) is `Option.none`; `none == none` holds, as
  it does for Python's `None` inside an object column.
* Python's substring operator `in` is `strContains`, and Python `dict`
  (insertion ordered) is an association list with `dictGet` / `dictSet`.
* Fallible code returns `Except`; each error constructor corresponds to one
  `raise` site of the source.
-/

/-! ## Python string membership (`pat in s`) -/

/-- `isPreOf pat s` is true when the character list `pat` is an initial
segment of `s`. -/
def isPreOf : List Char → List Char → Bool
  | [], _ => true
  | _ :: _, [] => false
  | a :: as, b :: bs => a == b && isPreOf as bs

/-- `subOf pat s` is true when `pat` occurs contiguously inside `s`
(the semantics of Python's `pat in s` on strings). -/
def subOf (pat : List Char) : List Char → Bool
  | [] => isPreOf pat []
  | s@(_ :: rest) => isPreOf pat s || subOf pat rest

/-- Python's `pat in s` substring test. -/
def strContains (s pat : String) : Bool :=
  subOf pat.data s.data

/-- Python's `s.split(sep)` for a one-character separator, on character
lists: splits at every occurrence of the separator, keeping empty parts. -/
def splitOnChar (sep : Char) : List Char → List (List Char)
  | [] => [[]]
  | c :: rest =>
    if c == sep then [] :: splitOnChar sep rest
    else
      match splitOnChar sep rest with
      | [] => [[c]]
      | h :: t => (c :: h) :: t

/-- Python's `s.split("_")`-style split (used by the aggregation to read the
energy carrier out of a flow `var_name`). -/
def pySplit (s : String) (sep : Char) : List String :=
  (splitOnChar sep s.data).map (fun l => { data := l })

/-- `Occurs pat s`: the string `pat` occurs contiguously inside `s`. -/
def Occurs (pat s : String) : Prop :=
  ∃ pre suf : List Char, s.data = pre ++ pat.data ++ suf




/-! ## Python ordered containers -/

/-- First-occurrence deduplication: `list(dict.fromkeys(l))` in the source. -/
def pyDedup {α : Type} [DecidableEq α] (l : List α) : List α :=
  l.foldl (fun acc x => if x ∈ acc then acc else acc ++ [x]) []



/-- Ordered-dict lookup (`d[k]` / `k in d`). -/
def dictGet : List (String × Int) → String → Option Int
  | [], _ => none
  | (k', v) :: rest, k => if k' == k then some v else dictGet rest k

/-- Ordered-dict update (`d[k] = v`): updates in place if the key exists,
otherwise appends, preserving Python's insertion order. -/
def dictSet : List (String × Int) → String → Int → List (String × Int)
  | [], k, v => [(k, v)]
  | (k', v') :: rest, k, v =>
    if k' == k then (k, v) :: rest else (k', v') :: dictSet rest k v

/-- `if k not in d: d[k] = 0` -/
def dictInit (d : List (String × Int)) (k : String) : List (String × Int) :=
  if (dictGet d k).isSome then d else dictSet d k 0

/-- `d[k] = d[k] + v` on a dictionary where `k` is present (the source always
initialises a bucket before accumulating into it). -/
def dictAcc (d : List (String × Int)) (k : String) (v : Int) : List (String × Int) :=
  dictSet d k ((dictGet d k).getD 0 + v)

/-! ## Time-series rows and the schema registry headers -/

/-- One row of a stacked time-series table (the `timeseries` schema of
`get_optional_required_header`).  Missing cells are `none`. -/
structure TSRow where
  id_ts : Option Nat
  region : String
  var_name : String
  timeindex_start : Option Int
  timeindex_stop : Option Int
  timeindex_resolution : Option Int
  series : List Int
  var_unit : Option String
  source : Option String
  comment : Option String
deriving DecidableEq, Repr

/-- One row of the five-column table produced by `stack_timeseries`
(`df_stacked_cols` in the source). -/
structure StackedRow where
  var_name : String
  timeindex_start : Int
  timeindex_stop : Int
  timeindex_resolution : Int
  series : List Int
deriving DecidableEq, Repr

/-- A wide (one column per variable) time-series table.  `isDatetime` models
whether the row index is a `pd.DatetimeIndex`; `index` is the timestamp list;
`cols` pairs each column name with its value sequence. -/
structure Wide where
  isDatetime : Bool
  index : List Int
  cols : List (String × List Int)
deriving DecidableEq, Repr

/-- The arithmetic timestamp sequence `a, a+d, …, a+d*(n-1)`. -/
def arithSeq (a d : Int) : Nat → List Int
  | 0 => []
  | n + 1 => a :: arithSeq (a + d) d n

/-- `pd.date_range(start, stop, freq=step)` for a positive step: all
timestamps `start + k*step ≤ stop`.  (Non-positive steps do not arise in the
claims; the source would hand them to pandas unchanged.) -/
def dateRange (start stop step : Int) : List Int :=
  if 0 < step ∧ start ≤ stop then
    arithSeq start step ((stop - start).toNat / step.toNat + 1)
  else []

/-- `pd.infer_freq`: raises (`.error`) on fewer than three timestamps, else
reports the constant nonzero step of the index, or `none` when the index has
no single fixed frequency. -/
def inferFreq (idx : List Int) : Except Unit (Option Int) :=
  if idx.length < 3 then .error ()
  else if (idx.getD 1 0 - idx.getD 0 0) != 0 &&
      (idx.zip idx.tail).all (fun q => q.2 - q.1 == idx.getD 1 0 - idx.getD 0 0) then
    .ok (some (idx.getD 1 0 - idx.getD 0 0))
  else .ok none

/-! ## `stack_timeseries` (source lines 773-849) -/

inductive StackErr where
  /-- `TypeError`: "Your data should have a time series as an index …" -/
  | notTimeIndexed : StackErr
  /-- The `ValueError` pandas raises from `pd.infer_freq` on an index of
  fewer than three timestamps. -/
  | needAtLeastThreeDates : StackErr
  /-- `TypeError`: "No frequency of your provided data could be detected." -/
  | noFixedFrequency : StackErr
deriving DecidableEq, Repr

/-- `stack_timeseries`: checks that the index is a `DatetimeIndex`, that a
single frequency is inferable, then emits one stacked row per column in
column order, with `timeindex_start`/`timeindex_stop` the first/last index
timestamps and `timeindex_resolution` the frequency. -/
def stack_timeseries (w : Wide) : Except StackErr (List StackedRow) :=
  if ¬ w.isDatetime then .error .notTimeIndexed
  else
    match inferFreq w.index with
    | .error _ => .error .needAtLeastThreeDates
    | .ok none => .error .noFixedFrequency
    | .ok (some d) =>
      .ok (w.cols.map (fun c =>
        { var_name := c.1
          timeindex_start := w.index.headD 0
          timeindex_stop := w.index.getLastD 0
          timeindex_resolution := d
          series := c.2 }))

/-! ## `check_consistency_timeindex` and `unstack_timeseries`
(source lines 732-770 and 852-902) -/

inductive UnstackErr where
  /-- `TypeError`: "Your provided data is missing a {name}." -/
  | missingTimeField (name : String) : UnstackErr
  /-- `ValueError`: "The {name} of your provided data doesn't match for all
  entries." -/
  | inconsistentTimeIndex (name : String) : UnstackErr
  /-- `IndexError` from `df[index].array[0]` on an empty table. -/
  | emptyIndexError : UnstackErr
  /-- The numpy/pandas shape error raised when the series lengths do not
  agree with the generated timestamp index. -/
  | shapeMismatch : UnstackErr
deriving DecidableEq, Repr

/-- The `name` computed from `index` at the top of
`check_consistency_timeindex`. -/
def timeindex_name (index : String) : String :=
  if index == "timeindex_start" then "start date"
  else if index == "timeindex_stop" then "end date"
  else if index == "timeindex_resolution" then "frequency"
  else ""

/-- `df[index]` for the three shared time columns. -/
def TSRow.timefield (r : TSRow) (index : String) : Option Int :=
  if index == "timeindex_start" then r.timeindex_start
  else if index == "timeindex_stop" then r.timeindex_stop
  else if index == "timeindex_resolution" then r.timeindex_resolution
  else none

/-- `check_consistency_timeindex(df, index)`: requires every row of the
column to equal its first entry, then requires that shared value to be
present, and returns it. -/
def check_consistency_timeindex (rows : List TSRow) (index : String) :
    Except UnstackErr Int :=
  let name := timeindex_name index
  match rows.map (fun r => r.timefield index) with
  | [] => .error .emptyIndexError
  | v0 :: vs =>
    if (v0 :: vs).all (fun v => v == v0) then
      match v0 with
      | none => .error (.missingTimeField name)
      | some v => .ok v
    else .error (.inconsistentTimeIndex name)

/-- `unstack_timeseries`: checks the three shared time fields (frequency,
then start date, then end date), then builds the wide table whose index is
`pd.date_range(start, stop, freq)` and whose `j`-th column is the `j`-th
row's `var_name` and series. -/
def unstack_timeseries (rows : List TSRow) : Except UnstackErr Wide := do
  let frequency ← check_consistency_timeindex rows "timeindex_resolution"
  let timeindex_start ← check_consistency_timeindex rows "timeindex_start"
  let timeindex_stop ← check_consistency_timeindex rows "timeindex_stop"
  let idx := dateRange timeindex_start timeindex_stop frequency
  if rows.all (fun r => r.series.length == idx.length) then
    .ok { isDatetime := true, index := idx,
          cols := rows.map (fun r => (r.var_name, r.series)) }
  else .error .shapeMismatch

/-! ## Region inference in `load_timeseries` (source lines 266-285) -/

inductive LoadErr where
  /-- `ValueError`: "The data is missing the region. Please add BB or BE to
  var_name column". -/
  | missingRegion : LoadErr
deriving DecidableEq, Repr

/-- The per-row region derivation of `load_timeseries` when the stacked
table has no `region` column: detect the region-code substrings `"BE"` and
`"BB"` in `var_name`. -/
def infer_region (var_name : String) : Except LoadErr String :=
  if strContains var_name "BE" && strContains var_name "BB" then .ok "BE_BB"
  else if strContains var_name "BE" && !strContains var_name "BB" then .ok "BE"
  else if !strContains var_name "BE" && strContains var_name "BB" then .ok "BB"
  else .error .missingRegion

/-- The whole region column built by the loader's row loop (the first row
with no detectable region aborts the load). -/
def infer_regions (var_names : List String) : Except LoadErr (List String) :=
  var_names.mapM infer_region

/-! ## Schema registry and table classification
(source lines 7-84, 351-377 and 438-470) -/

def scalars_header : List String :=
  ["id_scal", "scenario", "name", "var_name", "carrier", "region", "tech",
   "type", "var_value", "var_unit", "reference", "comment"]

def optional_header_scalars : List String :=
  ["id_scal", "var_unit", "reference", "comment"]

def timeseries_header : List String :=
  ["id_ts", "region", "var_name", "timeindex_start", "timeindex_stop",
   "timeindex_resolution", "series", "var_unit", "source", "comment"]

def optional_header_timeseries : List String :=
  ["id_ts", "var_unit", "source", "comment"]

/-- `required_header = header.copy(); for o in optional: required.remove(o)`. -/
def removeAll (header optional : List String) : List String :=
  optional.foldl (fun h o => h.erase o) header

def required_header_scalars : List String :=
  removeAll scalars_header optional_header_scalars

def required_header_timeseries : List String :=
  removeAll timeseries_header optional_header_timeseries

/-- The header-reduction loop shared by `df_filtered` and `df_agg`: drop
every column recognised as optional (for either schema) from the table's
header, keeping the order of the remaining columns. -/
def df_header_required (df_header : List String) : List String :=
  df_header.foldl (fun acc item =>
    if item ∈ optional_header_scalars then acc.erase item
    else if item ∈ optional_header_timeseries then acc.erase item
    else acc) df_header

inductive Shape where
  | scalars : Shape
  | timeseries : Shape
deriving DecidableEq, Repr

inductive SchemaErr where
  /-- `KeyError`: "The data you passed is neither a stacked time series nor
  does it contain scalars." — the message names both full expected headers,
  carried here as the constructor's arguments. -/
  | unrecognizedSchema (ts_header sc_header : List String) : SchemaErr
deriving DecidableEq, Repr

/-- The table classification performed at the top of both `df_filtered` and
`df_agg`: compare the optional-stripped header with the two registered
required headers (a Python `list ==`, so the comparison is order-sensitive). -/
def classify_table_header (df_header : List String) : Except SchemaErr Shape :=
  if df_header_required df_header = required_header_scalars then .ok .scalars
  else if df_header_required df_header = required_header_timeseries then .ok .timeseries
  else .error (.unrecognizedSchema timeseries_header scalars_header)

/-! ## `df_filtered` (source lines 319-406) -/

/-- The row-selection loop of `df_filtered`: for each requested value in
order, if it occurs nowhere in the key column a user notice is printed (the
second component counts those notices), otherwise every matching row is
appended in row order. -/
def filter_rows {ρ : Type} (rows : List ρ) (get : ρ → String) :
    List String → List ρ × Nat
  | [] => ([], 0)
  | v :: vs =>
    let rest := filter_rows rows get vs
    if v ∈ rows.map get then
      (rows.filter (fun r => get r == v) ++ rest.1, rest.2)
    else (rest.1, rest.2 + 1)

/-- One row of a scalar table (the `scalars` schema).  Missing cells are
`none`; `var_value` is the numeric payload. -/
structure ScalarRow where
  id_scal : Option Nat
  scenario : String
  name : String
  var_name : String
  carrier : String
  region : String
  tech : String
  type : String
  var_value : Int
  var_unit : Option String
  reference : Option String
  comment : Option String
deriving DecidableEq, Repr

/-- `df[key]` for the string-valued scalar columns that can be filtered or
aggregated by. -/
def ScalarRow.get (r : ScalarRow) (key : String) : String :=
  if key == "scenario" then r.scenario
  else if key == "region" then r.region
  else if key == "carrier" then r.carrier
  else if key == "tech" then r.tech
  else if key == "type" then r.type
  else if key == "var_name" then r.var_name
  else ""

/-- `df[key]` for the string-valued stacked time-series columns that can be
filtered or aggregated by. -/
def TSRow.get (r : TSRow) (key : String) : String :=
  if key == "region" then r.region
  else if key == "var_name" then r.var_name
  else ""

inductive FilterErr where
  /-- `KeyError`: "{key} is not a option for a filter." -/
  | invalidFilterKey (key : String) : FilterErr
deriving DecidableEq, Repr

/-- `df_filtered` on a scalar-shaped table (classification already done on
the header): validate the key against the scalar filter options, then run
the selection loop.  The result pairs the filtered rows with the number of
non-fatal "value not found" notices. -/
def df_filtered_scalars (rows : List ScalarRow) (key : String)
    (values : List String) : Except FilterErr (List ScalarRow × Nat) :=
  if key ∈ ["scenario", "region", "carrier", "tech", "type", "var_name"] then
    .ok (filter_rows rows (fun r => r.get key) values)
  else .error (.invalidFilterKey key)

/-- `df_filtered` on a timeseries-shaped table. -/
def df_filtered_timeseries (rows : List TSRow) (key : String)
    (values : List String) : Except FilterErr (List TSRow × Nat) :=
  if key ∈ ["region", "var_name"] then
    .ok (filter_rows rows (fun r => r.get key) values)
  else .error (.invalidFilterKey key)

/-! ## Scalar aggregation in `df_agg` (source lines 486-691) -/

inductive AggErr where
  /-- `KeyError`: "{key} is not a option for a aggregation." -/
  | invalidKey (key : String) : AggErr
  /-- `ValueError`: "Unknown var_name: {vn}. This variable is not implemented
  in the aggregation." -/
  | unknownVariable (vn : String) : AggErr
  /-- `IndexError` from `var_name.split("_")[2]` on a flow variable with
  fewer than three underscore-delimited segments. -/
  | indexError : AggErr
deriving DecidableEq, Repr

/-- The in/out accumulation pattern shared by the flow, costs and invest
branches: make sure the bucket exists, then add the value if `"in"` occurs
in `var_name`, subtract it if `"out"` does, and otherwise leave the bucket
untouched. -/
def dictSigned (d : List (String × Int)) (bucket vn : String) (v : Int) :
    List (String × Int) :=
  let d2 := dictInit d bucket
  if strContains vn "in" then dictAcc d2 bucket v
  else if strContains vn "out" then dictAcc d2 bucket (-v)
  else d2

/-- The body of the scalar-aggregation row loop: classify the row by
substring membership of `var_name` (capacity, flow, costs, invest, losses,
in that order) and accumulate `var_value` into the corresponding bucket of
the results dictionary; an unrecognised `var_name` raises. -/
def agg_step (key : String) (d : List (String × Int)) (r : ScalarRow) :
    Except AggErr (List (String × Int)) :=
  if strContains r.var_name "capacity" then
    .ok (dictAcc (dictInit d "capacity") "capacity" r.var_value)
  else if strContains r.var_name "flow" then
    match (pySplit r.var_name '_').get? 2 with
    | none => .error .indexError
    | some energy_carrier =>
      if !strContains key "carrier" && !strContains key "tech" then
        .ok (dictSigned d ("flow_" ++ energy_carrier) r.var_name r.var_value)
      else
        .ok (dictSigned d ("flow_" ++ energy_carrier ++ "_" ++ r.carrier)
              r.var_name r.var_value)
  else if strContains r.var_name "costs" then
    .ok (dictSigned d "costs" r.var_name r.var_value)
  else if strContains r.var_name "invest" then
    .ok (dictSigned d "invest" r.var_name r.var_value)
  else if strContains r.var_name "losses" then
    .ok (dictAcc (dictInit d "losses") "losses" r.var_value)
  else .error (.unknownVariable r.var_name)

/-- The inner row loop of scalar aggregation for one `(scenario, key_item)`
pair: fold `agg_step` over the rows whose scenario and key column match. -/
def agg_group (key s k : String) : List ScalarRow → List (String × Int) →
    Except AggErr (List (String × Int))
  | [], d => .ok d
  | r :: rest, d =>
    if r.scenario == s && r.get key == k then
      match agg_step key d r with
      | .error e => .error e
      | .ok d2 => agg_group key s k rest d2
    else agg_group key s k rest d

/-- The output row built for one bucket of one `(scenario, key_item)` group:
the aggregated dimension carries the key item, the other two of
region/carrier/tech are `"All"`, `type` is `"All"`, `name` is
"Aggregated by {key}" and `var_unit` is `"-"`. -/
def emit_row (key scenario key_item : String) (kv : String × Int) : ScalarRow :=
  { id_scal := none
    scenario := scenario
    name := "Aggregated by " ++ key
    var_name := kv.1
    carrier := if key == "carrier" then key_item else "All"
    region := if key == "region" then key_item else "All"
    tech := if key == "tech" then key_item else "All"
    type := "All"
    var_value := kv.2
    var_unit := some "-"
    reference := none
    comment := none }

/-- `df_agg` on a scalar-shaped table: validate the key, then for every
scenario (in first-occurrence order) and every key item (likewise) aggregate
the matching rows and append one output row per bucket of the results
dictionary, in dictionary insertion order. -/
def df_agg_scalars (key : String) (rows : List ScalarRow) :
    Except AggErr (List ScalarRow) :=
  if key ∈ ["region", "carrier", "tech"] then
    (pyDedup (rows.map (fun r => r.scenario))).foldlM (fun acc s =>
      (pyDedup (rows.map (fun r => r.get key))).foldlM (fun acc2 k =>
        (agg_group key s k rows []).map
          (fun d => acc2 ++ d.map (emit_row key s k))) acc) []
  else .error (.invalidKey key)

/-! ## Time-series aggregation in `df_agg` (source lines 693-727) -/

inductive TAggErr where
  /-- `KeyError`: "{key} is not a option for a aggregation." -/
  | invalidKey (key : String) : TAggErr
  /-- The numpy broadcast error raised by `np.add` on two sequences of
  different lengths (neither of length one). -/
  | broadcastError : TAggErr
  /-- `KeyError` from `results_dict["series"]` when a group matched no row
  (unreachable: every key item comes from the key column itself). -/
  | seriesKeyError : TAggErr
deriving DecidableEq, Repr

/-- `np.add` on two equal-length sequences. -/
def elementwiseAdd (a b : List Int) : Option (List Int) :=
  if a.length = b.length then some (List.zipWith (· + ·) a b) else none

/-- The inner row loop of time-series aggregation for one key item: on the
first matching row the accumulator is seeded with `[0] * len(df["series"][0])`
(the length of the **table's first** series), then every matching row's
series is added elementwise. -/
def ts_group_fold (k : String) (len0 : Nat) :
    List TSRow → Option (List Int) → Except TAggErr (Option (List Int))
  | [], acc => .ok acc
  | r :: rest, acc =>
    if r.get "region" == k then
      match elementwiseAdd (acc.getD (List.replicate len0 0)) r.series with
      | none => .error .broadcastError
      | some s2 => ts_group_fold k len0 rest (some s2)
    else ts_group_fold k len0 rest acc

/-- `df_agg` on a timeseries-shaped table (the only allowed key is
`"region"`): for every key item in first-occurrence order, sum the matching
series elementwise and emit one row whose region is the key item, whose
`var_name` is "Aggregated by {key}", whose three time fields are copied from
the **table's first row** (`df[...][0]` in the source) and whose `var_unit`
is `"-"`. -/
def df_agg_timeseries (key : String) (rows : List TSRow) :
    Except TAggErr (List TSRow) :=
  if key ∈ ["region"] then
    match rows with
    | [] => .ok []
    | r0 :: _ =>
      (pyDedup (rows.map (fun r => r.get key))).foldlM (fun acc k =>
        match ts_group_fold k r0.series.length rows none with
        | .error e => .error e
        | .ok none => .error .seriesKeyError
        | .ok (some s) =>
          .ok (acc ++ [{ id_ts := none
                         region := k
                         var_name := "Aggregated by " ++ key
                         timeindex_start := r0.timeindex_start
                         timeindex_stop := r0.timeindex_stop
                         timeindex_resolution := r0.timeindex_resolution
                         series := s
                         var_unit := some "-"
                         source := none
                         comment := none }])) []
  else .error (.invalidKey key)

/-! ## Spec-side characterizations used in theorem statements -/

/-- A `var_name` recognised by the scalar aggregation: one of the five
category substrings occurs in it. -/
def recognizedVar (vn : String) : Bool :=
  strContains vn "capacity" || strContains vn "flow" || strContains vn "costs" ||
    strContains vn "invest" || strContains vn "losses"

/-- A `var_name` on which the flow branch of the scalar aggregation does not
raise an `IndexError`: if it contains `"flow"` it has a third
underscore-delimited segment. -/
def WellFlow (vn : String) : Prop :=
  strContains vn "flow" = true → ((pySplit vn '_').get? 2).isSome = true

/-- The element-wise sum, over the group of rows whose region equals `k`, of
the first `len0` positions of the series — the spec's description of one
aggregated time series. -/
def specGroupSeriesSum (rows : List TSRow) (k : String) (len0 : Nat) : List Int :=
  (List.range len0).map (fun i =>
    ((rows.filter (fun r => r.region == k)).map (fun r => r.series.getD i 0)).sum)

/-- A scalar header whose first two required columns are swapped: the same
set of columns as `required_header_scalars`, in a different order. -/
def swapped_scalar_header : List String :=
  ["name", "scenario", "var_name", "carrier", "region", "tech", "type", "var_value"]
theorem isPreOf_iff (pat s : List Char) :
    isPreOf pat s = true ↔ ∃ suf, s = pat ++ suf := by
  induction pat generalizing s with
  | nil => simp [isPreOf]
  | cons a as ih =>
    cases s with
    | nil => simp [isPreOf]
    | cons b bs =>
      simp only [isPreOf, Bool.and_eq_true, beq_iff_eq, ih]
      constructor
      · rintro ⟨rfl, suf, rfl⟩
        exact ⟨suf, rfl⟩
      · rintro ⟨suf, h⟩
        injection h with h1 h2
        exact ⟨h1.symm, suf, h2⟩

theorem subOf_iff (pat s : List Char) :
    subOf pat s = true ↔ ∃ pre suf, s = pre ++ pat ++ suf := by
  induction s with
  | nil =>
    simp only [subOf, isPreOf_iff]
    constructor
    · rintro ⟨suf, h⟩
      exact ⟨[], suf, by simpa using h⟩
    · rintro ⟨pre, suf, h⟩
      rcases List.append_eq_nil.mp h.symm with ⟨h1, h2⟩
      rcases List.append_eq_nil.mp h1 with ⟨rfl, rfl⟩
      exact ⟨[], rfl⟩
  | cons b bs ih =>
    simp only [subOf, Bool.or_eq_true, isPreOf_iff, ih]
    constructor
    · rintro (⟨suf, h⟩ | ⟨pre, suf, h⟩)
      · exact ⟨[], suf, by simpa using h⟩
      · exact ⟨b :: pre, suf, by simp [h]⟩
    · rintro ⟨pre, suf, h⟩
      cases pre with
      | nil => exact Or.inl ⟨suf, by simpa using h⟩
      | cons c cs =>
        injection h with h1 h2
        exact Or.inr ⟨cs, suf, h2⟩

/-- `strContains` decides exactly the occurrence relation `Occurs`. -/
theorem strContains_iff_occurs (s pat : String) :
    strContains s pat = true ↔ Occurs pat s := by
  unfold strContains Occurs
  exact subOf_iff pat.data s.data

theorem pyDedup_aux_mem {α : Type} [DecidableEq α] (l acc : List α) (x : α) :
    x ∈ l.foldl (fun acc y => if y ∈ acc then acc else acc ++ [y]) acc ↔
      x ∈ acc ∨ x ∈ l := by
  induction l generalizing acc with
  | nil => simp
  | cons a as ih =>
    simp only [List.foldl_cons]
    by_cases h : a ∈ acc
    · rw [if_pos h, ih]
      constructor
      · rintro (hx | hx)
        · exact Or.inl hx
        · exact Or.inr (List.mem_cons_of_mem _ hx)
      · rintro (hx | hx)
        · exact Or.inl hx
        · rcases List.mem_cons.mp hx with rfl | hx
          · exact Or.inl h
          · exact Or.inr hx
    · rw [if_neg h, ih]
      simp only [List.mem_append, List.mem_singleton, List.mem_cons]
      tauto

/-- Membership in a Python-style dedup is membership in the original list. -/
theorem pyDedup_mem {α : Type} [DecidableEq α] (l : List α) (x : α) :
    x ∈ pyDedup l ↔ x ∈ l := by
  unfold pyDedup
  rw [pyDedup_aux_mem]
  simp


/-! ## Arithmetic-index and frequency-inference lemmas -/

theorem arithSeq_length (a d : Int) (n : Nat) : (arithSeq a d n).length = n := by
  induction n generalizing a with
  | zero => rfl
  | succ m ih => simp [arithSeq, ih]

theorem arithSeq_headD (a d : Int) (n : Nat) (h : 1 ≤ n) :
    (arithSeq a d n).headD 0 = a := by
  cases n with
  | zero => omega
  | succ m => rfl

theorem arithSeq_getLastD (a d : Int) (n : Nat) (x : Int) :
    (arithSeq a d (n + 1)).getLastD x = a + d * n := by
  induction n generalizing a x with
  | zero => simp [arithSeq]
  | succ m ih =>
    show (arithSeq (a + d) d (m + 1)).getLastD a = a + d * (m + 1)
    rw [ih (a + d) a]
    ring

theorem arithSeq_chain (a d : Int) (n : Nat) :
    List.Chain' (fun x y => y - x = d) (arithSeq a d n) := by
  induction n generalizing a with
  | zero => simp [arithSeq]
  | succ m ih =>
    cases m with
    | zero => simp [arithSeq]
    | succ p =>
      refine List.chain'_cons.mpr ⟨by ring, ?_⟩
      exact ih (a + d)

theorem chain_eq_arithSeq (d : Int) (idx : List Int)
    (h : List.Chain' (fun x y => y - x = d) idx) :
    idx = arithSeq (idx.headD 0) d idx.length := by
  induction idx with
  | nil => rfl
  | cons x rest ih =>
    cases rest with
    | nil => rfl
    | cons y rest2 =>
      rcases List.chain'_cons.mp h with ⟨hxy, hrest⟩
      have hy : y = x + d := by omega
      have hr := ih hrest
      show x :: y :: rest2 = x :: arithSeq (x + d) d (y :: rest2).length
      rw [← hy]
      exact congrArg (x :: ·) hr

theorem zip_tail_all_iff (idx : List Int) (d : Int) :
    ((idx.zip idx.tail).all (fun q => q.2 - q.1 == d) = true) ↔
      List.Chain' (fun x y => y - x = d) idx := by
  induction idx with
  | nil => simp
  | cons x rest ih =>
    cases rest with
    | nil => simp
    | cons y rest2 =>
      rw [show (x :: y :: rest2).zip (x :: y :: rest2).tail =
            (x, y) :: ((y :: rest2).zip (y :: rest2).tail) from rfl]
      rw [List.all_cons, List.chain'_cons, Bool.and_eq_true, beq_iff_eq, ih]

theorem inferFreq_arith (a d : Int) (n : Nat) (h3 : 3 ≤ n) (hd : d ≠ 0) :
    inferFreq (arithSeq a d n) = .ok (some d) := by
  obtain ⟨m, rfl⟩ : ∃ m, n = m + 2 := ⟨n - 2, by omega⟩
  have h01 : (arithSeq a d (m + 2)).getD 1 0 - (arithSeq a d (m + 2)).getD 0 0 = d := by
    show a + d - a = d
    ring
  have hall : ((arithSeq a d (m + 2)).zip (arithSeq a d (m + 2)).tail).all
      (fun q => q.2 - q.1 == d) = true :=
    (zip_tail_all_iff _ d).mpr (arithSeq_chain a d (m + 2))
  unfold inferFreq
  rw [if_neg (by rw [arithSeq_length]; omega), h01, if_pos (by simp [hd, hall])]

theorem inferFreq_ok_of_length (idx : List Int) (h3 : 3 ≤ idx.length) :
    ∃ o, inferFreq idx = .ok o := by
  unfold inferFreq
  rw [if_neg (by omega)]
  by_cases hc : ((idx.getD 1 0 - idx.getD 0 0) != 0 &&
      (idx.zip idx.tail).all (fun q => q.2 - q.1 == idx.getD 1 0 - idx.getD 0 0)) = true
  · exact ⟨some (idx.getD 1 0 - idx.getD 0 0), by rw [if_pos hc]⟩
  · exact ⟨none, by rw [if_neg hc]⟩

theorem inferFreq_some_arith (idx : List Int) (d : Int)
    (h : inferFreq idx = .ok (some d)) :
    d ≠ 0 ∧ idx = arithSeq (idx.headD 0) d idx.length := by
  unfold inferFreq at h
  by_cases h3 : idx.length < 3
  · rw [if_pos h3] at h
    exact absurd h (by simp)
  · rw [if_neg h3] at h
    by_cases hc : ((idx.getD 1 0 - idx.getD 0 0) != 0 &&
        (idx.zip idx.tail).all (fun q => q.2 - q.1 == idx.getD 1 0 - idx.getD 0 0)) = true
    · rw [if_pos hc] at h
      have hd : idx.getD 1 0 - idx.getD 0 0 = d := by
        simpa using h
      rw [Bool.and_eq_true] at hc
      obtain ⟨hne, hall⟩ := hc
      rw [hd] at hall hne
      have hchain : List.Chain' (fun x y => y - x = d) idx :=
        (zip_tail_all_iff idx d).mp hall
      exact ⟨by simpa using hne, chain_eq_arithSeq d idx hchain⟩
    · rw [if_neg hc] at h
      exact absurd h (by simp)

/-! ## `check_consistency_timeindex` helper lemmas -/

theorem check_consistency_ok (rows : List TSRow) (index : String) (f : Int)
    (hne : rows ≠ []) (hall : ∀ r ∈ rows, r.timefield index = some f) :
    check_consistency_timeindex rows index = .ok f := by
  cases rows with
  | nil => exact absurd rfl hne
  | cons r0 rest =>
    have h0 : r0.timefield index = some f := hall r0 (by simp)
    have hcond : ((r0.timefield index :: rest.map (fun r => r.timefield index)).all
        (fun x => x == r0.timefield index)) = true := by
      rw [List.all_eq_true]
      intro x hx
      rcases List.mem_cons.mp hx with rfl | hx
      · exact beq_self_eq_true _
      · rcases List.mem_map.mp hx with ⟨r, hr, rfl⟩
        rw [hall r (by simp [hr]), h0]
        exact beq_self_eq_true _
    simp only [check_consistency_timeindex, List.map_cons]
    rw [if_pos hcond, h0]

theorem check_consistency_missing (rows : List TSRow) (index : String)
    (hne : rows ≠ []) (hall : ∀ r ∈ rows, r.timefield index = none) :
    check_consistency_timeindex rows index =
      .error (.missingTimeField (timeindex_name index)) := by
  cases rows with
  | nil => exact absurd rfl hne
  | cons r0 rest =>
    have h0 : r0.timefield index = none := hall r0 (by simp)
    have hcond : ((r0.timefield index :: rest.map (fun r => r.timefield index)).all
        (fun x => x == r0.timefield index)) = true := by
      rw [List.all_eq_true]
      intro x hx
      rcases List.mem_cons.mp hx with rfl | hx
      · exact beq_self_eq_true _
      · rcases List.mem_map.mp hx with ⟨r, hr, rfl⟩
        rw [hall r (by simp [hr]), h0]
        exact beq_self_eq_true _
    simp only [check_consistency_timeindex, List.map_cons]
    rw [if_pos hcond, h0]

theorem check_consistency_inconsistent (rows : List TSRow) (index : String)
    (r1 r2 : TSRow) (h1 : r1 ∈ rows) (h2 : r2 ∈ rows)
    (hne12 : r1.timefield index ≠ r2.timefield index) :
    check_consistency_timeindex rows index =
      .error (.inconsistentTimeIndex (timeindex_name index)) := by
  cases rows with
  | nil => simp at h1
  | cons r0 rest =>
    have hcond : ((r0.timefield index :: rest.map (fun r => r.timefield index)).all
        (fun x => x == r0.timefield index)) = false := by
      by_contra hc
      have hc' : ((r0.timefield index :: rest.map (fun r => r.timefield index)).all
          (fun x => x == r0.timefield index)) = true := by
        cases h : ((r0.timefield index :: rest.map (fun r => r.timefield index)).all
            (fun x => x == r0.timefield index)) with
        | true => rfl
        | false => exact absurd h hc
      rw [List.all_eq_true] at hc'
      have hmem : ∀ r ∈ r0 :: rest, r.timefield index = r0.timefield index := by
        intro r hr
        have hxmem : r.timefield index ∈
            r0.timefield index :: rest.map (fun r => r.timefield index) := by
          rcases List.mem_cons.mp hr with rfl | hr2
          · exact List.mem_cons_self _ _
          · exact List.mem_cons_of_mem _ (List.mem_map_of_mem _ hr2)
        exact eq_of_beq (hc' _ hxmem)
      exact hne12 ((hmem r1 h1).trans (hmem r2 h2).symm)
    simp only [check_consistency_timeindex, List.map_cons]
    rw [if_neg (by simp [hcond])]

/-! ## Claim C4: error handling of `unstack_timeseries` -/

/-- Claim C4: `unstack_timeseries` of a stacked table whose
`timeindex_start` values are missing fails with the missing-time-field error
(naming "start date"); a table with two distinct `timeindex_resolution`
values fails with the inconsistent-time-index error naming "frequency"; two
distinct `timeindex_stop` values (with frequency and start date consistent
and present) fail naming "end date".  Each check inspects only its own
column. -/
theorem claim_C4 :
    (∀ (rows : List TSRow) (r1 r2 : TSRow), r1 ∈ rows → r2 ∈ rows →
      r1.timeindex_resolution ≠ r2.timeindex_resolution →
      unstack_timeseries rows = .error (.inconsistentTimeIndex "frequency")) ∧
    (∀ (rows : List TSRow) (f : Int), rows ≠ [] →
      (∀ r ∈ rows, r.timeindex_resolution = some f) →
      (∀ r ∈ rows, r.timeindex_start = none) →
      unstack_timeseries rows = .error (.missingTimeField "start date")) ∧
    (∀ (rows : List TSRow) (f s : Int) (r1 r2 : TSRow),
      (∀ r ∈ rows, r.timeindex_resolution = some f) →
      (∀ r ∈ rows, r.timeindex_start = some s) →
      r1 ∈ rows → r2 ∈ rows → r1.timeindex_stop ≠ r2.timeindex_stop →
      unstack_timeseries rows = .error (.inconsistentTimeIndex "end date")) := by
  refine ⟨?_, ?_, ?_⟩
  · intro rows r1 r2 h1 h2 hne12
    have hc := check_consistency_inconsistent rows "timeindex_resolution" r1 r2 h1 h2
      (by simpa [TSRow.timefield] using hne12)
    simp only [unstack_timeseries, hc, timeindex_name]
    rfl
  · intro rows f hne hres hstart
    have hcres := check_consistency_ok rows "timeindex_resolution" f hne
      (by intro r hr; simpa [TSRow.timefield] using hres r hr)
    have hcstart := check_consistency_missing rows "timeindex_start" hne
      (by intro r hr; simpa [TSRow.timefield] using hstart r hr)
    simp only [unstack_timeseries, hcres, hcstart, timeindex_name]
    rfl
  · intro rows f s r1 r2 hres hstart h1 h2 hne12
    have hne : rows ≠ [] := by
      intro h
      rw [h] at h1
      simp at h1
    have hcres := check_consistency_ok rows "timeindex_resolution" f hne
      (by intro r hr; simpa [TSRow.timefield] using hres r hr)
    have hcstart := check_consistency_ok rows "timeindex_start" s hne
      (by intro r hr; simpa [TSRow.timefield] using hstart r hr)
    have hcstop := check_consistency_inconsistent rows "timeindex_stop" r1 r2 h1 h2
      (by simpa [TSRow.timefield] using hne12)
    simp only [unstack_timeseries, hcres, hcstart, hcstop, timeindex_name]
    rfl

/-- Witness for C4 at concrete tables: an all-missing start column, an
inconsistent resolution column and an inconsistent stop column. -/
theorem claim_C4_witness :
    unstack_timeseries
        [⟨none, "A", "x", none, some 2, some 1, [1], none, none, none⟩,
         ⟨none, "B", "y", none, some 2, some 1, [2], none, none, none⟩] =
      .error (.missingTimeField "start date") ∧
    unstack_timeseries
        [⟨none, "A", "x", some 0, some 2, some 1, [1], none, none, none⟩,
         ⟨none, "B", "y", some 0, some 2, some 2, [2], none, none, none⟩] =
      .error (.inconsistentTimeIndex "frequency") ∧
    unstack_timeseries
        [⟨none, "A", "x", some 0, some 2, some 1, [1], none, none, none⟩,
         ⟨none, "B", "y", some 0, some 3, some 1, [2], none, none, none⟩] =
      .error (.inconsistentTimeIndex "end date") := by
  refine ⟨?_, ?_, ?_⟩
  · exact claim_C4.2.1
      [⟨none, "A", "x", none, some 2, some 1, [1], none, none, none⟩,
       ⟨none, "B", "y", none, some 2, some 1, [2], none, none, none⟩] 1
      (by decide) (by decide) (by decide)
  · exact claim_C4.1
      [⟨none, "A", "x", some 0, some 2, some 1, [1], none, none, none⟩,
       ⟨none, "B", "y", some 0, some 2, some 2, [2], none, none, none⟩]
      ⟨none, "A", "x", some 0, some 2, some 1, [1], none, none, none⟩
      ⟨none, "B", "y", some 0, some 2, some 2, [2], none, none, none⟩
      (by decide) (by decide) (by decide)
  · exact claim_C4.2.2
      [⟨none, "A", "x", some 0, some 2, some 1, [1], none, none, none⟩,
       ⟨none, "B", "y", some 0, some 3, some 1, [2], none, none, none⟩] 1 0
      ⟨none, "A", "x", some 0, some 2, some 1, [1], none, none, none⟩
      ⟨none, "B", "y", some 0, some 3, some 1, [2], none, none, none⟩
      (by decide) (by decide) (by decide) (by decide) (by decide)

/-! ## Claim C5: behaviour of `stack_timeseries` -/

/-- Counterexample to claim C5 as stated.  First input: the row index is a
datetime index that is **not ascending** (4, 2, 0), yet `stack_timeseries`
does not fail with the not-time-indexed error — it succeeds, because the
source only checks `isinstance(_df.index, pd.DatetimeIndex)` and
`pd.infer_freq` accepts a descending regular index.  Second input: a
two-timestamp index has no single inferable fixed frequency, yet the failure
is the `ValueError` escaping from `pd.infer_freq` (needing at least three
dates), not the no-fixed-frequency error. -/
theorem claim_C5_counterexample :
    stack_timeseries ⟨true, [4, 2, 0], [("a", [5, 6, 7])]⟩ =
      .ok [⟨"a", 4, 0, -2, [5, 6, 7]⟩] ∧
    stack_timeseries ⟨true, [0, 1], [("a", [5, 6])]⟩ =
      .error .needAtLeastThreeDates := by
  constructor
  · rfl
  · rfl

/-- Claim C5 as amended: `stack_timeseries` fails with the not-time-indexed
error exactly when the row index is not a datetime-typed index (ascending is
not required); on a datetime index of fewer than three timestamps the
frequency-inference library error escapes; on a datetime index of at least
three timestamps that is not an arithmetic progression with nonzero step it
fails with the no-fixed-frequency error; and otherwise it emits exactly one
stacked row per column of the wide table, in column order, with `var_name`
the column name, `timeindex_start`/`timeindex_stop` the first and last index
timestamps, `timeindex_resolution` the frequency step, and `series` the
column's full value sequence. -/
theorem claim_C5 :
    (∀ w : Wide, stack_timeseries w = .error .notTimeIndexed ↔ w.isDatetime = false) ∧
    (∀ w : Wide, w.isDatetime = true → w.index.length < 3 →
      stack_timeseries w = .error .needAtLeastThreeDates) ∧
    (∀ w : Wide, w.isDatetime = true → 3 ≤ w.index.length →
      (¬ ∃ a d, d ≠ 0 ∧ w.index = arithSeq a d w.index.length) →
      stack_timeseries w = .error .noFixedFrequency) ∧
    (∀ (w : Wide) (a d : Int) (n : Nat), w.isDatetime = true →
      w.index = arithSeq a d n → 3 ≤ n → d ≠ 0 →
      stack_timeseries w =
        .ok (w.cols.map (fun c => ⟨c.1, a, a + d * (n - 1 : Nat), d, c.2⟩))) := by
  refine ⟨?_, ?_, ?_, ?_⟩
  · intro w
    constructor
    · intro h
      by_contra hb
      have ht : w.isDatetime = true := by
        cases hw : w.isDatetime with
        | true => rfl
        | false => exact absurd hw hb
      unfold stack_timeseries at h
      rw [if_neg (by simp [ht])] at h
      cases hf : inferFreq w.index with
      | error e => rw [hf] at h; exact absurd h (by simp)
      | ok o => cases o <;> rw [hf] at h <;> exact absurd h (by simp)
    · intro h
      unfold stack_timeseries
      rw [if_pos (by simp [h])]
  · intro w ht hlen
    unfold stack_timeseries
    rw [if_neg (by simp [ht])]
    have : inferFreq w.index = .error () := by
      unfold inferFreq
      rw [if_pos hlen]
    rw [this]
  · intro w ht hlen hnas
    unfold stack_timeseries
    rw [if_neg (by simp [ht])]
    rcases inferFreq_ok_of_length w.index hlen with ⟨o, ho⟩
    cases o with
    | none => rw [ho]
    | some d =>
      rcases inferFreq_some_arith w.index d ho with ⟨hd, harith⟩
      exact absurd ⟨w.index.headD 0, d, hd, harith⟩ hnas
  · intro w a d n ht hidx h3 hd
    unfold stack_timeseries
    rw [if_neg (by simp [ht])]
    rw [hidx, inferFreq_arith a d n h3 hd]
    obtain ⟨m, rfl⟩ : ∃ m, n = m + 1 := ⟨n - 1, by omega⟩
    rw [arithSeq_headD a d (m + 1) (by omega)]
    rw [show (arithSeq a d (m + 1)).getLastD 0 = a + d * m from arithSeq_getLastD a d m 0]
    norm_num

/-- Witness for the amended C5 at a concrete well-formed wide table. -/
theorem claim_C5_witness :
    stack_timeseries ⟨true, [10, 12, 14, 16], [("a", [1, 2, 3, 4]), ("b", [5, 6, 7, 8])]⟩ =
      .ok [⟨"a", 10, 16, 2, [1, 2, 3, 4]⟩, ⟨"b", 10, 16, 2, [5, 6, 7, 8]⟩] := by
  have h := claim_C5.2.2.2 ⟨true, [10, 12, 14, 16], [("a", [1, 2, 3, 4]), ("b", [5, 6, 7, 8])]⟩
    10 2 4 rfl (by decide) (by decide) (by decide)
  simpa using h

/-! ## Claim C8: region inference -/

/-- Claim C8: during `load_timeseries` of a stacked table with no region
column, the region of each row is derived from `var_name` by substring
detection: both "BE" and "BB" present yields "BE_BB", exactly one yields
that token, and a row with neither makes the load fail with the
missing-region error; e.g. "BB-electricity-something" yields "BB". -/
theorem claim_C8 :
    (∀ vn, Occurs "BE" vn → Occurs "BB" vn → infer_region vn = .ok "BE_BB") ∧
    (∀ vn, Occurs "BE" vn → ¬ Occurs "BB" vn → infer_region vn = .ok "BE") ∧
    (∀ vn, ¬ Occurs "BE" vn → Occurs "BB" vn → infer_region vn = .ok "BB") ∧
    (∀ (vns : List String) (vn : String), vn ∈ vns →
      ¬ Occurs "BE" vn → ¬ Occurs "BB" vn →
      infer_regions vns = .error .missingRegion) ∧
    infer_region "BB-electricity-something" = .ok "BB" := by
  have hBE : ∀ vn, strContains vn "BE" = true ↔ Occurs "BE" vn :=
    fun vn => strContains_iff_occurs vn "BE"
  have hBB : ∀ vn, strContains vn "BB" = true ↔ Occurs "BB" vn :=
    fun vn => strContains_iff_occurs vn "BB"
  have hBEf : ∀ vn, ¬ Occurs "BE" vn → strContains vn "BE" = false := by
    intro vn h
    cases hc : strContains vn "BE" with
    | true => exact absurd ((hBE vn).mp hc) h
    | false => rfl
  have hBBf : ∀ vn, ¬ Occurs "BB" vn → strContains vn "BB" = false := by
    intro vn h
    cases hc : strContains vn "BB" with
    | true => exact absurd ((hBB vn).mp hc) h
    | false => rfl
  refine ⟨?_, ?_, ?_, ?_, by rfl⟩
  · intro vn h1 h2
    unfold infer_region
    rw [if_pos (by rw [(hBE vn).mpr h1, (hBB vn).mpr h2]; rfl)]
  · intro vn h1 h2
    unfold infer_region
    rw [if_neg (by rw [(hBE vn).mpr h1, hBBf vn h2]; simp),
      if_pos (by rw [(hBE vn).mpr h1, hBBf vn h2]; rfl)]
  · intro vn h1 h2
    unfold infer_region
    rw [if_neg (by rw [hBEf vn h1, (hBB vn).mpr h2]; simp),
      if_neg (by rw [hBEf vn h1, (hBB vn).mpr h2]; simp),
      if_pos (by rw [hBEf vn h1, (hBB vn).mpr h2]; rfl)]
  · intro vns vn hmem h1 h2
    have hbad : infer_region vn = .error .missingRegion := by
      unfold infer_region
      rw [if_neg (by rw [hBEf vn h1, hBBf vn h2]; simp),
        if_neg (by rw [hBEf vn h1, hBBf vn h2]; simp),
        if_neg (by rw [hBEf vn h1, hBBf vn h2]; simp)]
    unfold infer_regions
    induction vns with
    | nil => simp at hmem
    | cons v vs ih =>
      rcases List.mem_cons.mp hmem with rfl | hmem2
      · rw [List.mapM_cons, hbad]
        rfl
      · rw [List.mapM_cons]
        cases hv : infer_region v with
        | error e =>
          cases e
          rfl
        | ok reg =>
          rw [ih hmem2]
          rfl

/-- Witness for C8 at concrete variable names. -/
theorem claim_C8_witness :
    infer_region "heat-BE-BB" = .ok "BE_BB" ∧
    infer_region "BE-solar" = .ok "BE" ∧
    infer_regions ["BB-wind", "electricity-load"] = .error .missingRegion := by
  refine ⟨?_, ?_, ?_⟩
  · exact claim_C8.1 "heat-BE-BB"
      ((strContains_iff_occurs _ _).mp (by decide))
      ((strContains_iff_occurs _ _).mp (by decide))
  · exact claim_C8.2.1 "BE-solar"
      ((strContains_iff_occurs _ _).mp (by decide))
      (fun h => by
        have := (strContains_iff_occurs "BE-solar" "BB").mpr h
        exact absurd this (by decide))
  · exact claim_C8.2.2.2.1 ["BB-wind", "electricity-load"] "electricity-load"
      (by decide)
      (fun h => by
        have := (strContains_iff_occurs "electricity-load" "BE").mpr h
        exact absurd this (by decide))
      (fun h => by
        have := (strContains_iff_occurs "electricity-load" "BB").mpr h
        exact absurd this (by decide))

/-! ## Claim C6: table classification in `df_filtered` and `df_agg` -/

theorem df_header_required_id (l acc : List String)
    (h : ∀ item ∈ l, item ∉ optional_header_scalars ∧ item ∉ optional_header_timeseries) :
    l.foldl (fun acc item =>
      if item ∈ optional_header_scalars then acc.erase item
      else if item ∈ optional_header_timeseries then acc.erase item
      else acc) acc = acc := by
  induction l generalizing acc with
  | nil => rfl
  | cons a as ih =>
    have ha := h a (by simp)
    simp only [List.foldl_cons, if_neg ha.1, if_neg ha.2]
    exact ih acc (fun item hi => h item (by simp [hi]))

theorem df_header_required_of_perm_sc (l : List String)
    (h : l.Perm required_header_scalars) : df_header_required l = l := by
  unfold df_header_required
  refine df_header_required_id l l ?_
  intro item hi
  have hfact : ∀ item ∈ required_header_scalars,
      item ∉ optional_header_scalars ∧ item ∉ optional_header_timeseries := by decide
  exact hfact item (h.mem_iff.mp hi)

theorem df_header_required_of_perm_ts (l : List String)
    (h : l.Perm required_header_timeseries) : df_header_required l = l := by
  unfold df_header_required
  refine df_header_required_id l l ?_
  intro item hi
  have hfact : ∀ item ∈ required_header_timeseries,
      item ∉ optional_header_scalars ∧ item ∉ optional_header_timeseries := by decide
  exact hfact item (h.mem_iff.mp hi)

/-- Counterexample to claim C6 as stated: a table whose columns are exactly
the required scalar columns with the first two swapped.  Its column **set**
equals the registered required scalar set, yet classification fails with the
unrecognised-schema error, because the source compares Python lists
(order-sensitive), not sets. -/
theorem claim_C6_counterexample :
    swapped_scalar_header.Perm required_header_scalars ∧
    classify_table_header swapped_scalar_header =
      .error (.unrecognizedSchema timeseries_header scalars_header) := by
  constructor
  · exact List.Perm.swap "scenario" "name"
      ["var_name", "carrier", "region", "tech", "type", "var_value"]
  · rfl

/-- Claim C6 as amended: `df_filtered` and `df_agg` classify a table by
stripping the recognised optional columns from its header and comparing the
resulting **list** (order-sensitively, by Python list equality) with the two
registered required headers; classification depends only on that stripped
list, succeeds exactly on an exact match, fails with the
unrecognised-schema error naming both expected headers otherwise — in
particular on every reordering of a required header other than the header
itself. -/
theorem claim_C6 :
    (∀ h h' : List String, df_header_required h = df_header_required h' →
      classify_table_header h = classify_table_header h') ∧
    (∀ h : List String, classify_table_header h = .ok .scalars ↔
      df_header_required h = required_header_scalars) ∧
    (∀ h : List String, classify_table_header h = .ok .timeseries ↔
      df_header_required h = required_header_timeseries) ∧
    (∀ h : List String,
      classify_table_header h = .error (.unrecognizedSchema timeseries_header scalars_header) ↔
      (df_header_required h ≠ required_header_scalars ∧
        df_header_required h ≠ required_header_timeseries)) ∧
    (∀ h : List String, h.Perm required_header_scalars → h ≠ required_header_scalars →
      classify_table_header h = .error (.unrecognizedSchema timeseries_header scalars_header)) ∧
    (∀ h : List String, h.Perm required_header_timeseries → h ≠ required_header_timeseries →
      classify_table_header h = .error (.unrecognizedSchema timeseries_header scalars_header)) := by
  have hcls : ∀ h : List String,
      (df_header_required h = required_header_scalars →
        classify_table_header h = .ok .scalars) ∧
      (df_header_required h ≠ required_header_scalars →
        df_header_required h = required_header_timeseries →
        classify_table_header h = .ok .timeseries) ∧
      (df_header_required h ≠ required_header_scalars →
        df_header_required h ≠ required_header_timeseries →
        classify_table_header h =
          .error (.unrecognizedSchema timeseries_header scalars_header)) := by
    intro h
    refine ⟨?_, ?_, ?_⟩
    · intro h1
      unfold classify_table_header
      rw [if_pos h1]
    · intro h1 h2
      unfold classify_table_header
      rw [if_neg h1, if_pos h2]
    · intro h1 h2
      unfold classify_table_header
      rw [if_neg h1, if_neg h2]
  refine ⟨?_, ?_, ?_, ?_, ?_, ?_⟩
  · intro h h' he
    unfold classify_table_header
    rw [he]
  · intro h
    constructor
    · intro hc
      by_contra h1
      by_cases h2 : df_header_required h = required_header_timeseries
      · rw [(hcls h).2.1 h1 h2] at hc
        exact absurd hc (by simp)
      · rw [(hcls h).2.2 h1 h2] at hc
        exact absurd hc (by simp)
    · exact (hcls h).1
  · intro h
    constructor
    · intro hc
      by_cases h1 : df_header_required h = required_header_scalars
      · rw [(hcls h).1 h1] at hc
        exact absurd hc (by simp)
      · by_contra h2
        rw [(hcls h).2.2 h1 h2] at hc
        exact absurd hc (by simp)
    · intro h2
      by_cases h1 : df_header_required h = required_header_scalars
      · exact absurd (h1.symm.trans h2) (by decide)
      · exact (hcls h).2.1 h1 h2
  · intro h
    constructor
    · intro hc
      by_cases h1 : df_header_required h = required_header_scalars
      · rw [(hcls h).1 h1] at hc
        exact absurd hc (by simp)
      · by_cases h2 : df_header_required h = required_header_timeseries
        · rw [(hcls h).2.1 h1 h2] at hc
          exact absurd hc (by simp)
        · exact ⟨h1, h2⟩
    · intro ⟨h1, h2⟩
      exact (hcls h).2.2 h1 h2
  · intro h hp hne
    have hid : df_header_required h = h := df_header_required_of_perm_sc h hp
    have h2 : df_header_required h ≠ required_header_timeseries := by
      rw [hid]
      intro hcontra
      have hlen := hp.length_eq
      rw [hcontra] at hlen
      exact absurd hlen (by decide)
    exact (hcls h).2.2 (by rw [hid]; exact hne) h2
  · intro h hp hne
    have hid : df_header_required h = h := df_header_required_of_perm_ts h hp
    have h1 : df_header_required h ≠ required_header_scalars := by
      rw [hid]
      intro hcontra
      have hlen := hp.length_eq
      rw [hcontra] at hlen
      exact absurd hlen (by decide)
    exact (hcls h).2.2 h1 (by rw [hid]; exact hne)

/-- Witness for the amended C6: the full scalar header classifies like the
required scalar header (their stripped lists agree), and a reversed required
timeseries header is rejected. -/
theorem claim_C6_witness :
    classify_table_header scalars_header = classify_table_header required_header_scalars ∧
    classify_table_header required_header_timeseries.reverse =
      .error (.unrecognizedSchema timeseries_header scalars_header) := by
  constructor
  · exact claim_C6.1 scalars_header required_header_scalars (by decide)
  · exact claim_C6.2.2.2.2.2 required_header_timeseries.reverse
      (List.reverse_perm required_header_timeseries) (by decide)

/-! ## Claim C9: `df_filtered` row selection -/

theorem filter_rows_fst {ρ : Type} (rows : List ρ) (get : ρ → String) (values : List String) :
    (filter_rows rows get values).1 =
      (values.map (fun v => rows.filter (fun r => get r == v))).flatten := by
  induction values with
  | nil => rfl
  | cons v vs ih =>
    by_cases hv : v ∈ rows.map get
    · simp only [filter_rows, if_pos hv, List.map_cons, List.flatten_cons, ih]
    · have hemp : rows.filter (fun r => get r == v) = [] := by
        rw [List.filter_eq_nil_iff]
        intro r hr
        intro hc
        exact hv (List.mem_map.mpr ⟨r, hr, eq_of_beq hc⟩)
      simp only [filter_rows, if_neg hv, List.map_cons, List.flatten_cons, hemp,
        List.nil_append, ih]

theorem filter_rows_snd {ρ : Type} (rows : List ρ) (get : ρ → String) (values : List String) :
    (filter_rows rows get values).2 =
      (values.filter (fun v => decide (v ∉ rows.map get))).length := by
  induction values with
  | nil => rfl
  | cons v vs ih =>
    by_cases hv : v ∈ rows.map get
    · have hd : (decide (v ∉ rows.map get)) = false := by simp [hv]
      simp only [filter_rows, if_pos hv, List.filter_cons, hd, ih]
      rfl
    · have hd : (decide (v ∉ rows.map get)) = true := by simp [hv]
      simp only [filter_rows, if_neg hv, List.filter_cons, hd, ih]
      simp [Nat.add_comm]

theorem filter_split_perm {ρ : Type} (rows : List ρ) (get : ρ → String) (v : String)
    (vs : List String) (hv : v ∉ vs) :
    (rows.filter (fun r => get r == v) ++
        rows.filter (fun r => decide (get r ∈ vs))).Perm
      (rows.filter (fun r => decide (get r ∈ v :: vs))) := by
  induction rows with
  | nil => simp
  | cons r rs ih =>
    by_cases h1 : get r = v
    · have e1 : (get r == v) = true := by simp [h1]
      have e2 : (decide (get r ∈ vs)) = false := by simp [h1, hv]
      have e3 : (decide (get r ∈ v :: vs)) = true := by simp [h1]
      rw [List.filter_cons, List.filter_cons, List.filter_cons, e1, e2, e3]
      simp only [if_pos rfl, if_neg (by simp : ¬ (false = true)), List.cons_append]
      exact ih.cons r
    · by_cases h2 : get r ∈ vs
      · have e1 : (get r == v) = false := by simp [h1]
        have e2 : (decide (get r ∈ vs)) = true := by simp [h2]
        have e3 : (decide (get r ∈ v :: vs)) = true := by simp [h2]
        rw [List.filter_cons, List.filter_cons, List.filter_cons, e1, e2, e3]
        simp only [if_pos rfl, if_neg (by simp : ¬ (false = true))]
        exact List.Perm.trans List.perm_middle (ih.cons r)
      · have e1 : (get r == v) = false := by simp [h1]
        have e2 : (decide (get r ∈ vs)) = false := by simp [h2]
        have e3 : (decide (get r ∈ v :: vs)) = false := by simp [h1, h2]
        rw [List.filter_cons, List.filter_cons, List.filter_cons, e1, e2, e3]
        simp only [if_neg (by simp : ¬ (false = true))]
        exact ih

theorem filter_rows_perm {ρ : Type} (rows : List ρ) (get : ρ → String) (values : List String)
    (hnd : values.Nodup) :
    (filter_rows rows get values).1.Perm
      (rows.filter (fun r => decide (get r ∈ values))) := by
  induction values with
  | nil => simp [filter_rows]
  | cons v vs ih =>
    rcases List.nodup_cons.mp hnd with ⟨hv, hnd2⟩
    have hfst : (filter_rows rows get (v :: vs)).1 =
        rows.filter (fun r => get r == v) ++ (filter_rows rows get vs).1 := by
      rw [filter_rows_fst, filter_rows_fst, List.map_cons, List.flatten_cons]
    rw [hfst]
    refine List.Perm.trans (List.Perm.append_left _ (ih hnd2)) ?_
    exact filter_split_perm rows get v vs hv

theorem filter_rows_absent {ρ : Type} (rows : List ρ) (get : ρ → String)
    (values : List String) (v : String) (hv : v ∉ rows.map get) :
    (filter_rows rows get (values ++ [v])).1 = (filter_rows rows get values).1 ∧
    (filter_rows rows get (values ++ [v])).2 = (filter_rows rows get values).2 + 1 := by
  have hemp : rows.filter (fun r => get r == v) = [] := by
    rw [List.filter_eq_nil_iff]
    intro r hr hc
    exact hv (List.mem_map.mpr ⟨r, hr, eq_of_beq hc⟩)
  constructor
  · rw [filter_rows_fst, filter_rows_fst, List.map_append, List.flatten_append]
    simp [hemp]
  · rw [filter_rows_snd, filter_rows_snd, List.filter_append, List.length_append]
    have h1 : List.filter (fun u => decide (u ∉ List.map get rows)) [v] = [v] := by
      rw [List.filter_cons, if_pos (decide_eq_true hv)]
      rfl
    rw [h1]
    rfl

/-- Claim C9: for a schema-conformant table and an allowed filter key,
`df_filtered` returns exactly the rows whose key column equals some element
of the requested values (one scan per value, each preserving row order; for
duplicate-free value lists the result is a permutation of the membership
filter, and for a single value it is exactly the order-preserving filter);
a requested value with no match adds a non-fatal notice — never an error —
and leaves the result unchanged.  Proved for the scalar and the timeseries
instantiation. -/
theorem claim_C9 :
    (∀ (rows : List ScalarRow) (key : String) (values : List String),
      key ∈ ["scenario", "region", "carrier", "tech", "type", "var_name"] →
      ∃ res, df_filtered_scalars rows key values = .ok res ∧
        (values.Nodup →
          res.1.Perm (rows.filter (fun r => decide (r.get key ∈ values))))) ∧
    (∀ (rows : List ScalarRow) (key : String) (v : String),
      key ∈ ["scenario", "region", "carrier", "tech", "type", "var_name"] →
      df_filtered_scalars rows key [v] =
        .ok (rows.filter (fun r => r.get key == v),
          if v ∈ rows.map (fun r => r.get key) then 0 else 1)) ∧
    (∀ (rows : List ScalarRow) (key : String) (values : List String) (v : String),
      key ∈ ["scenario", "region", "carrier", "tech", "type", "var_name"] →
      v ∉ rows.map (fun r => r.get key) →
      ∃ l n, df_filtered_scalars rows key values = .ok (l, n) ∧
        df_filtered_scalars rows key (values ++ [v]) = .ok (l, n + 1)) ∧
    (∀ (rows : List TSRow) (key : String) (values : List String),
      key ∈ ["region", "var_name"] → values.Nodup →
      ∃ res, df_filtered_timeseries rows key values = .ok res ∧
        res.1.Perm (rows.filter (fun r => decide (r.get key ∈ values)))) := by
  refine ⟨?_, ?_, ?_, ?_⟩
  · intro rows key values hkey
    refine ⟨filter_rows rows (fun r => r.get key) values, ?_, ?_⟩
    · unfold df_filtered_scalars
      rw [if_pos hkey]
    · intro hnd
      exact filter_rows_perm rows (fun r => r.get key) values hnd
  · intro rows key v hkey
    unfold df_filtered_scalars
    rw [if_pos hkey]
    have h1 : (filter_rows rows (fun r => r.get key) [v]).1 =
        rows.filter (fun r => r.get key == v) := by
      rw [filter_rows_fst]
      simp
    have h2 : (filter_rows rows (fun r => r.get key) [v]).2 =
        if v ∈ rows.map (fun r => r.get key) then 0 else 1 := by
      rw [filter_rows_snd]
      by_cases hv : v ∈ rows.map (fun r => r.get key)
      · rw [List.filter_cons,
          if_neg (by simp [hv] :
            ¬ ((decide (v ∉ List.map (fun r => r.get key) rows)) = true)),
          if_pos hv]
        rfl
      · rw [List.filter_cons, if_pos (decide_eq_true hv), if_neg hv]
        rfl
    rw [show filter_rows rows (fun r => r.get key) [v] =
        ((filter_rows rows (fun r => r.get key) [v]).1,
         (filter_rows rows (fun r => r.get key) [v]).2) from rfl, h1, h2]
  · intro rows key values v hkey hv
    refine ⟨(filter_rows rows (fun r => r.get key) values).1,
        (filter_rows rows (fun r => r.get key) values).2, ?_, ?_⟩
    · unfold df_filtered_scalars
      rw [if_pos hkey]
    · unfold df_filtered_scalars
      rw [if_pos hkey]
      have h := filter_rows_absent rows (fun r => r.get key) values v hv
      rw [show filter_rows rows (fun r => r.get key) (values ++ [v]) =
          ((filter_rows rows (fun r => r.get key) (values ++ [v])).1,
           (filter_rows rows (fun r => r.get key) (values ++ [v])).2) from rfl,
        h.1, h.2]
  · intro rows key values hkey hnd
    refine ⟨filter_rows rows (fun r => r.get key) values, ?_, ?_⟩
    · unfold df_filtered_timeseries
      rw [if_pos hkey]
    · exact filter_rows_perm rows (fun r => r.get key) values hnd

/-- Witness for C9 at a concrete scalar table. -/
theorem claim_C9_witness :
    ∃ l n,
      df_filtered_scalars
        [⟨none, "s", "n", "capacity_1", "c", "BB", "t", "ty", 1, none, none, none⟩,
         ⟨none, "s", "n", "capacity_2", "c", "BE", "t", "ty", 2, none, none, none⟩]
        "region" ["BB"] = .ok (l, n) ∧
      df_filtered_scalars
        [⟨none, "s", "n", "capacity_1", "c", "BB", "t", "ty", 1, none, none, none⟩,
         ⟨none, "s", "n", "capacity_2", "c", "BE", "t", "ty", 2, none, none, none⟩]
        "region" (["BB"] ++ ["XX"]) = .ok (l, n + 1) := by
  exact claim_C9.2.2.1
    [⟨none, "s", "n", "capacity_1", "c", "BB", "t", "ty", 1, none, none, none⟩,
     ⟨none, "s", "n", "capacity_2", "c", "BE", "t", "ty", 2, none, none, none⟩]
    "region" ["BB"] "XX" (by decide) (by decide)

/-! ## `Except`-monad fold lemmas -/

theorem except_bind_ok {ε α β : Type} (a : α) (f : α → Except ε β) :
    (Except.ok a >>= f) = f a := rfl

theorem except_bind_err {ε α β : Type} (e : ε) (f : α → Except ε β) :
    ((Except.error e : Except ε α) >>= f) = Except.error e := rfl

theorem foldlM_except_ok_invariant {α β ε : Type} (P : β → Prop) (l : List α)
    (f : β → α → Except ε β)
    (hstep : ∀ b a b', a ∈ l → f b a = .ok b' → P b → P b') :
    ∀ b b', P b → l.foldlM f b = .ok b' → P b' := by
  induction l with
  | nil =>
    intro b b' hb h
    rw [List.foldlM_nil] at h
    cases h
    exact hb
  | cons a as ih =>
    intro b b' hb h
    rw [List.foldlM_cons] at h
    cases hfa : f b a with
    | error e =>
      rw [hfa, except_bind_err] at h
      exact absurd h (by simp)
    | ok b2 =>
      rw [hfa, except_bind_ok] at h
      exact ih (fun b a' b' ha' => hstep b a' b' (List.mem_cons_of_mem _ ha')) b2 b'
        (hstep b a b2 (List.mem_cons_self _ _) hfa hb) h

theorem foldlM_except_ok_each {α β ε : Type} (l : List α) (f : β → α → Except ε β) :
    ∀ b b₂, l.foldlM f b = .ok b₂ → ∀ a ∈ l, ∃ b' b'', f b' a = .ok b'' := by
  induction l with
  | nil =>
    intro b b₂ _ a ha
    simp at ha
  | cons a as ih =>
    intro b b₂ h a' ha'
    rw [List.foldlM_cons] at h
    cases hfa : f b a with
    | error e =>
      rw [hfa, except_bind_err] at h
      exact absurd h (by simp)
    | ok b2 =>
      rw [hfa, except_bind_ok] at h
      rcases List.mem_cons.mp ha' with rfl | ha2
      · exact ⟨b, b2, hfa⟩
      · exact ih b2 b₂ h a' ha2

theorem foldlM_except_error_src {α β ε : Type} (l : List α) (f : β → α → Except ε β) :
    ∀ b e, l.foldlM f b = .error e → ∃ b' a, a ∈ l ∧ f b' a = .error e := by
  induction l with
  | nil =>
    intro b e h
    rw [List.foldlM_nil] at h
    have hp : (pure b : Except ε β) = Except.ok b := rfl
    rw [hp] at h
    exact absurd h (by simp)
  | cons a as ih =>
    intro b e h
    rw [List.foldlM_cons] at h
    cases hfa : f b a with
    | error e0 =>
      rw [hfa, except_bind_err] at h
      cases h
      exact ⟨b, a, by simp, hfa⟩
    | ok b2 =>
      rw [hfa, except_bind_ok] at h
      rcases ih b2 e h with ⟨b', a', ha', hfa'⟩
      exact ⟨b', a', by simp [ha'], hfa'⟩

theorem foldlM_except_reaches_error {α β ε : Type} (P : ε → Prop) (l : List α)
    (f : β → α → Except ε β)
    (hP : ∀ b a, a ∈ l → ∀ e, f b a = .error e → P e)
    (a₀ : α) (ha₀ : a₀ ∈ l) (hbad : ∀ b, ∃ e, f b a₀ = .error e) :
    ∀ b, ∃ e, l.foldlM f b = .error e ∧ P e := by
  induction l with
  | nil => simp at ha₀
  | cons a as ih =>
    intro b
    cases hfa : f b a with
    | error e =>
      refine ⟨e, ?_, hP b a (by simp) e hfa⟩
      rw [List.foldlM_cons, hfa, except_bind_err]
    | ok b2 =>
      rcases List.mem_cons.mp ha₀ with rfl | ha2
      · rcases hbad b with ⟨e, he⟩
        rw [hfa] at he
        exact absurd he (by simp)
      · rcases ih (fun b a' ha' => hP b a' (List.mem_cons_of_mem _ ha')) ha2 b2
          with ⟨e, he, hpe⟩
        refine ⟨e, ?_, hpe⟩
        rw [List.foldlM_cons, hfa, except_bind_ok]
        exact he

/-! ## `agg_step` and `agg_group` analysis -/

theorem agg_step_unknown (key : String) (d : List (String × Int)) (r : ScalarRow)
    (h : recognizedVar r.var_name = false) :
    agg_step key d r = .error (.unknownVariable r.var_name) := by
  unfold recognizedVar at h
  simp only [Bool.or_eq_false_iff] at h
  obtain ⟨⟨⟨⟨h1, h2⟩, h3⟩, h4⟩, h5⟩ := h
  unfold agg_step
  rw [if_neg (by simp [h1]), if_neg (by simp [h2]), if_neg (by simp [h3]),
    if_neg (by simp [h4]), if_neg (by simp [h5])]

theorem agg_step_ok_recognized (key : String) (d : List (String × Int)) (r : ScalarRow)
    (d2 : List (String × Int)) (h : agg_step key d r = .ok d2) :
    recognizedVar r.var_name = true := by
  cases hr : recognizedVar r.var_name with
  | true => rfl
  | false =>
    rw [agg_step_unknown key d r hr] at h
    exact absurd h (by simp)

theorem agg_step_error_cases (key : String) (d : List (String × Int)) (r : ScalarRow)
    (e : AggErr) (h : agg_step key d r = .error e) :
    (recognizedVar r.var_name = false ∧ e = .unknownVariable r.var_name) ∨
    (strContains r.var_name "flow" = true ∧
      ((pySplit r.var_name '_').get? 2) = none ∧ e = .indexError) := by
  unfold agg_step at h
  by_cases h1 : strContains r.var_name "capacity" = true
  · rw [if_pos h1] at h
    exact absurd h (by simp)
  · rw [if_neg h1] at h
    by_cases h2 : strContains r.var_name "flow" = true
    · rw [if_pos h2] at h
      revert h
      cases hsp : (pySplit r.var_name '_').get? 2 with
      | none =>
        intro h
        cases h
        exact Or.inr ⟨h2, rfl, rfl⟩
      | some ec =>
        intro h
        dsimp only at h
        split at h
        · exact absurd h (by simp)
        · exact absurd h (by simp)
    · rw [if_neg h2] at h
      by_cases h3 : strContains r.var_name "costs" = true
      · rw [if_pos h3] at h
        exact absurd h (by simp)
      · rw [if_neg h3] at h
        by_cases h4 : strContains r.var_name "invest" = true
        · rw [if_pos h4] at h
          exact absurd h (by simp)
        · rw [if_neg h4] at h
          by_cases h5 : strContains r.var_name "losses" = true
          · rw [if_pos h5] at h
            exact absurd h (by simp)
          · rw [if_neg h5] at h
            cases h
            refine Or.inl ⟨?_, rfl⟩
            unfold recognizedVar
            rw [Bool.eq_false_iff.mpr h1, Bool.eq_false_iff.mpr h2,
              Bool.eq_false_iff.mpr h3, Bool.eq_false_iff.mpr h4,
              Bool.eq_false_iff.mpr h5]
            rfl

theorem agg_group_ok_recognized (key s k : String) (rows : List ScalarRow) :
    ∀ d d2, agg_group key s k rows d = .ok d2 →
      ∀ r ∈ rows, (r.scenario == s && r.get key == k) = true →
        recognizedVar r.var_name = true := by
  induction rows with
  | nil =>
    intro d d2 _ r hr
    simp at hr
  | cons r0 rest ih =>
    intro d d2 h r hr hguard
    unfold agg_group at h
    by_cases hg : (r0.scenario == s && r0.get key == k) = true
    · rw [if_pos hg] at h
      cases hstep : agg_step key d r0 with
      | error e =>
        rw [hstep] at h
        exact absurd h (by simp)
      | ok d3 =>
        rw [hstep] at h
        rcases List.mem_cons.mp hr with rfl | hr2
        · exact agg_step_ok_recognized key d r d3 hstep
        · exact ih d3 d2 h r hr2 hguard
    · rw [if_neg hg] at h
      rcases List.mem_cons.mp hr with rfl | hr2
      · exact absurd hguard hg
      · exact ih d d2 h r hr2 hguard

theorem agg_group_error_char (key s k : String) (rows : List ScalarRow)
    (hwf : ∀ r ∈ rows, WellFlow r.var_name) :
    ∀ d e, agg_group key s k rows d = .error e →
      ∃ r ∈ rows, e = .unknownVariable r.var_name ∧
        recognizedVar r.var_name = false := by
  induction rows with
  | nil =>
    intro d e h
    unfold agg_group at h
    exact absurd h (by simp)
  | cons r0 rest ih =>
    intro d e h
    unfold agg_group at h
    by_cases hg : (r0.scenario == s && r0.get key == k) = true
    · rw [if_pos hg] at h
      cases hstep : agg_step key d r0 with
      | error e0 =>
        rw [hstep] at h
        cases h
        rcases agg_step_error_cases key d r0 _ hstep with ⟨hrec, rfl⟩ | ⟨hfl, hsp, rfl⟩
        · exact ⟨r0, by simp, rfl, hrec⟩
        · have := hwf r0 (by simp) hfl
          rw [hsp] at this
          exact absurd this (by simp)
      | ok d3 =>
        rw [hstep] at h
        rcases ih (fun r hr => hwf r (List.mem_cons_of_mem _ hr)) d3 e h
          with ⟨r, hr, he, hrec⟩
        exact ⟨r, List.mem_cons_of_mem _ hr, he, hrec⟩
    · rw [if_neg hg] at h
      rcases ih (fun r hr => hwf r (List.mem_cons_of_mem _ hr)) d e h
        with ⟨r, hr, he, hrec⟩
      exact ⟨r, List.mem_cons_of_mem _ hr, he, hrec⟩

/-! ## Claim C10: the `type` column of scalar-aggregation output -/

/-- Claim C10: every row emitted by `df_agg` on a scalar-shaped table has
its `type` column set to the literal "All", whatever the input rows' types
were — `type` is overwritten along with the two non-aggregated dimensions. -/
theorem claim_C10 (key : String) (rows : List ScalarRow) (out : List ScalarRow)
    (h : df_agg_scalars key rows = .ok out) :
    ∀ r ∈ out, r.type = "All" := by
  unfold df_agg_scalars at h
  by_cases hkey : key ∈ ["region", "carrier", "tech"]
  · rw [if_pos hkey] at h
    refine foldlM_except_ok_invariant (fun l => ∀ r ∈ l, r.type = "All") _ _
      ?_ [] out (by simp) h
    intro acc s acc' _ hstep hacc
    refine foldlM_except_ok_invariant (fun l => ∀ r ∈ l, r.type = "All") _ _
      ?_ acc acc' hacc hstep
    intro acc2 k acc2' _ hstep2 hacc2
    cases hg : agg_group key s k rows [] with
    | error e =>
      rw [hg] at hstep2
      exact absurd hstep2 (by simp [Except.map])
    | ok dct =>
      rw [hg] at hstep2
      have : acc2' = acc2 ++ dct.map (emit_row key s k) := by
        simpa [Except.map] using hstep2.symm
      subst this
      intro r hr
      rcases List.mem_append.mp hr with hr1 | hr2
      · exact hacc2 r hr1
      · rcases List.mem_map.mp hr2 with ⟨kv, _, rfl⟩
        rfl
  · rw [if_neg hkey] at h
    exact absurd h (by simp)

/-- Witness for C10 at a concrete one-row table whose input `type` is not
"All". -/
theorem claim_C10_witness :
    ScalarRow.type ⟨none, "s", "Aggregated by region", "capacity", "All", "BB",
      "All", "All", (7 : Int), some "-", none, none⟩ = "All" :=
  claim_C10 "region"
    [⟨none, "s", "n", "my_capacity", "c", "BB", "t", "storage", 7, none, none, none⟩]
    [⟨none, "s", "Aggregated by region", "capacity", "All", "BB", "All", "All", 7,
      some "-", none, none⟩]
    (by rfl)
    ⟨none, "s", "Aggregated by region", "capacity", "All", "BB", "All", "All", 7,
      some "-", none, none⟩
    (by decide)

/-! ## Claim C3: unknown variables make scalar aggregation fail -/

/-- Claim C3: `df_agg` on a scalar table never silently drops a row whose
`var_name` carries none of the five category substrings — if aggregation
succeeds, every row was recognised; and a table containing an unrecognised
row (all rows' flow names well formed) fails with the unknown-variable error
naming an unrecognised row's `var_name`. -/
theorem claim_C3 :
    (∀ (key : String) (rows : List ScalarRow) (out : List ScalarRow),
      df_agg_scalars key rows = .ok out →
      ∀ r ∈ rows, recognizedVar r.var_name = true) ∧
    (∀ (key : String) (rows : List ScalarRow),
      key ∈ ["region", "carrier", "tech"] →
      (∀ r ∈ rows, WellFlow r.var_name) →
      (∃ r ∈ rows, recognizedVar r.var_name = false) →
      ∃ vn, (∃ r ∈ rows, r.var_name = vn ∧ recognizedVar vn = false) ∧
        df_agg_scalars key rows = .error (.unknownVariable vn)) := by
  constructor
  · intro key rows out h r hr
    unfold df_agg_scalars at h
    by_cases hkey : key ∈ ["region", "carrier", "tech"]
    · rw [if_pos hkey] at h
      have hs : r.scenario ∈ pyDedup (rows.map (fun r => r.scenario)) :=
        (pyDedup_mem _ _).mpr (List.mem_map_of_mem _ hr)
      have hk : r.get key ∈ pyDedup (rows.map (fun r => r.get key)) :=
        (pyDedup_mem _ _).mpr (List.mem_map_of_mem _ hr)
      rcases foldlM_except_ok_each _ _ [] out h r.scenario hs with ⟨acc, acc', houter⟩
      rcases foldlM_except_ok_each _ _ acc acc' houter (r.get key) hk
        with ⟨acc2, acc2', hinner⟩
      cases hg : agg_group key r.scenario (r.get key) rows [] with
      | error e =>
        rw [hg] at hinner
        exact absurd hinner (by simp [Except.map])
      | ok dct =>
        exact agg_group_ok_recognized key r.scenario (r.get key) rows [] dct hg r hr
          (by simp)
    · rw [if_neg hkey] at h
      exact absurd h (by simp)
  · intro key rows hkey hwf ⟨bad, hbad, hbadrec⟩
    have hgroup : ∃ e0, agg_group key bad.scenario (bad.get key) rows [] = .error e0 := by
      cases hg : agg_group key bad.scenario (bad.get key) rows [] with
      | error e0 => exact ⟨e0, rfl⟩
      | ok dct =>
        have := agg_group_ok_recognized key bad.scenario (bad.get key) rows [] dct hg
          bad hbad (by simp)
        rw [hbadrec] at this
        exact absurd this (by simp)
    have hs : bad.scenario ∈ pyDedup (rows.map (fun r => r.scenario)) :=
      (pyDedup_mem _ _).mpr (List.mem_map_of_mem _ hbad)
    have hk : bad.get key ∈ pyDedup (rows.map (fun r => r.get key)) :=
      (pyDedup_mem _ _).mpr (List.mem_map_of_mem _ hbad)
    have hinner_bad : ∀ acc : List ScalarRow,
        ∃ e, (pyDedup (rows.map (fun r => r.get key))).foldlM
          (fun acc2 k =>
            (agg_group key bad.scenario k rows []).map
              (fun d => acc2 ++ d.map (emit_row key bad.scenario k))) acc = .error e ∧
          (∃ r ∈ rows, e = .unknownVariable r.var_name ∧
            recognizedVar r.var_name = false) := by
      intro acc
      refine foldlM_except_reaches_error _ _ _ ?_ (bad.get key) hk ?_ acc
      · intro acc2 k _ e hstep
        cases hg : agg_group key bad.scenario k rows [] with
        | error e1 =>
          rw [hg] at hstep
          have he : e1 = e := by simpa [Except.map] using hstep
          exact he ▸ agg_group_error_char key bad.scenario k rows hwf [] e1 hg
        | ok dct =>
          rw [hg] at hstep
          exact absurd hstep (by simp [Except.map])
      · intro acc2
        rcases hgroup with ⟨e0, hg⟩
        exact ⟨e0, by rw [hg]; rfl⟩
    have houter : ∃ e, (pyDedup (rows.map (fun r => r.scenario))).foldlM
        (fun acc s =>
          (pyDedup (rows.map (fun r => r.get key))).foldlM
            (fun acc2 k =>
              (agg_group key s k rows []).map
                (fun d => acc2 ++ d.map (emit_row key s k))) acc) [] = .error e ∧
        (∃ r ∈ rows, e = .unknownVariable r.var_name ∧
          recognizedVar r.var_name = false) := by
      refine foldlM_except_reaches_error _ _ _ ?_ bad.scenario hs ?_ []
      · intro acc s _ e hstep
        rcases foldlM_except_error_src _ _ acc e hstep with ⟨acc2, k, hkmem, hfk⟩
        cases hg : agg_group key s k rows [] with
        | error e1 =>
          rw [hg] at hfk
          have he : e1 = e := by simpa [Except.map] using hfk
          exact he ▸ agg_group_error_char key s k rows hwf [] e1 hg
        | ok dct =>
          rw [hg] at hfk
          exact absurd hfk (by simp [Except.map])
      · intro acc
        rcases hinner_bad acc with ⟨e, he, hpe⟩
        exact ⟨e, he⟩
    rcases houter with ⟨e, he, r, hrmem, rfl, hrrec⟩
    refine ⟨r.var_name, ⟨r, hrmem, rfl, hrrec⟩, ?_⟩
    unfold df_agg_scalars
    rw [if_pos hkey]
    exact he

/-- Witness for C3: a table with one well-formed flow row and one
unrecognised row fails naming the unrecognised variable. -/
theorem claim_C3_witness :
    ∃ vn, (∃ r ∈ [(⟨none, "s", "n", "flow_in_el_wind", "c", "BB", "t", "ty",
          (5 : Int), none, none, none⟩ : ScalarRow),
        ⟨none, "s", "n", "foobar_in", "c", "BB", "t", "ty", 1, none, none, none⟩],
        r.var_name = vn ∧ recognizedVar vn = false) ∧
      df_agg_scalars "carrier"
        [⟨none, "s", "n", "flow_in_el_wind", "c", "BB", "t", "ty", 5, none, none, none⟩,
         ⟨none, "s", "n", "foobar_in", "c", "BB", "t", "ty", 1, none, none, none⟩] =
        .error (.unknownVariable vn) :=
  claim_C3.2 "carrier"
    [⟨none, "s", "n", "flow_in_el_wind", "c", "BB", "t", "ty", 5, none, none, none⟩,
     ⟨none, "s", "n", "foobar_in", "c", "BB", "t", "ty", 1, none, none, none⟩]
    (by decide)
    (by
      intro r hr
      rcases List.mem_cons.mp hr with rfl | hr2
      · intro hflow
        decide
      · rcases List.mem_cons.mp hr2 with rfl | hr3
        · intro hflow
          exact absurd hflow (by decide)
        · simp at hr3)
    ⟨⟨none, "s", "n", "foobar_in", "c", "BB", "t", "ty", 1, none, none, none⟩,
      by decide, by decide⟩

/-! ## Claim C7: time-series aggregation -/

theorem TSRow_get_region (r : TSRow) : r.get "region" = r.region := by
  unfold TSRow.get
  rw [if_pos (by decide)]

theorem list_eq_map_getD (s : List Int) (L : Nat) (h : s.length = L) :
    (List.range L).map (fun i => s.getD i 0) = s := by
  apply List.ext_getElem
  · simp [h]
  · intro i h1 h2
    simp only [List.getElem_map, List.getElem_range]
    rw [List.getD_eq_getElem s 0 (by omega)]

theorem zipWith_add_getD (a b : List Int) (i : Nat) (ha : i < a.length)
    (hb : i < b.length) :
    (List.zipWith (· + ·) a b).getD i 0 = a.getD i 0 + b.getD i 0 := by
  rw [List.getD_eq_getElem _ 0 (by simp [List.length_zipWith]; omega),
    List.getD_eq_getElem a 0 ha, List.getD_eq_getElem b 0 hb,
    List.getElem_zipWith]

theorem ts_group_fold_some (k : String) (L : Nat) (rows : List TSRow)
    (hlen : ∀ r ∈ rows, r.region = k → r.series.length = L) :
    ∀ s : List Int, s.length = L →
      ts_group_fold k L rows (some s) =
        .ok (some ((List.range L).map (fun i =>
          s.getD i 0 + ((rows.filter (fun r => r.region == k)).map
            (fun r => r.series.getD i 0)).sum))) := by
  induction rows with
  | nil =>
    intro s hs
    show Except.ok (some s) = _
    simp only [List.filter_nil, List.map_nil, List.sum_nil, Int.add_zero]
    rw [list_eq_map_getD s L hs]
  | cons r rest ih =>
    intro s hs
    unfold ts_group_fold
    by_cases hr : (r.get "region" == k) = true
    · have hrk : r.region = k := by
        rw [TSRow_get_region] at hr
        exact eq_of_beq hr
      have hlenr : r.series.length = L := hlen r (by simp) hrk
      rw [if_pos hr]
      have hadd : elementwiseAdd ((some s).getD (List.replicate L 0)) r.series =
          some (List.zipWith (· + ·) s r.series) := by
        show elementwiseAdd s r.series = _
        unfold elementwiseAdd
        rw [if_pos (by omega)]
      rw [hadd]
      show ts_group_fold k L rest (some (List.zipWith (· + ·) s r.series)) = _
      rw [ih (fun r' hr' => hlen r' (List.mem_cons_of_mem _ hr')) _
        (by rw [List.length_zipWith]; omega)]
      congr 1
      congr 1
      apply List.map_congr_left
      intro i hi
      have hiL : i < L := List.mem_range.mp hi
      rw [zipWith_add_getD s r.series i (by omega) (by omega)]
      have hfz : (r :: rest).filter (fun r => r.region == k) =
          r :: rest.filter (fun r => r.region == k) := by
        rw [List.filter_cons, if_pos (by simp [hrk])]
      rw [hfz, List.map_cons, List.sum_cons]
      ring
    · rw [if_neg hr]
      rw [ih (fun r' hr' => hlen r' (List.mem_cons_of_mem _ hr')) s hs]
      have hrk : ¬ (r.region == k) = true := by
        rw [TSRow_get_region] at hr
        exact hr
      have hfz : (r :: rest).filter (fun r => r.region == k) =
          rest.filter (fun r => r.region == k) := by
        rw [List.filter_cons, if_neg hrk]
      rw [hfz]

theorem ts_group_fold_from_none (k : String) (L : Nat) (rows : List TSRow)
    (hlen : ∀ r ∈ rows, r.region = k → r.series.length = L)
    (hex : ∃ r ∈ rows, r.region = k) :
    ts_group_fold k L rows none = .ok (some (specGroupSeriesSum rows k L)) := by
  induction rows with
  | nil => simp at hex
  | cons r rest ih =>
    unfold ts_group_fold
    by_cases hr : (r.get "region" == k) = true
    · have hrk : r.region = k := by
        rw [TSRow_get_region] at hr
        exact eq_of_beq hr
      have hlenr : r.series.length = L := hlen r (by simp) hrk
      rw [if_pos hr]
      have hadd : elementwiseAdd ((none : Option (List Int)).getD (List.replicate L 0))
          r.series = some (List.zipWith (· + ·) (List.replicate L 0) r.series) := by
        show elementwiseAdd (List.replicate L 0) r.series = _
        unfold elementwiseAdd
        rw [if_pos (by simp [hlenr])]
      rw [hadd]
      show ts_group_fold k L rest
          (some (List.zipWith (· + ·) (List.replicate L 0) r.series)) = _
      rw [ts_group_fold_some k L rest (fun r' hr' => hlen r' (List.mem_cons_of_mem _ hr'))
        _ (by rw [List.length_zipWith]; simp [hlenr])]
      unfold specGroupSeriesSum
      congr 1
      congr 1
      apply List.map_congr_left
      intro i hi
      have hiL : i < L := List.mem_range.mp hi
      rw [zipWith_add_getD (List.replicate L 0) r.series i (by simp [hiL]) (by omega)]
      have hfz : (r :: rest).filter (fun r => r.region == k) =
          r :: rest.filter (fun r => r.region == k) := by
        rw [List.filter_cons, if_pos (by simp [hrk])]
      rw [hfz, List.map_cons, List.sum_cons]
      rw [List.getD_eq_getElem _ 0 (by simp [hiL]), List.getElem_replicate]
      ring
    · rw [if_neg hr]
      have hrk : ¬ (r.region == k) = true := by
        rw [TSRow_get_region] at hr
        exact hr
      have hex2 : ∃ r' ∈ rest, r'.region = k := by
        rcases hex with ⟨r0, hr0, hk0⟩
        rcases List.mem_cons.mp hr0 with rfl | hr02
        · exact absurd (by simp [hk0]) hrk
        · exact ⟨r0, hr02, hk0⟩
      rw [ih (fun r' hr' => hlen r' (List.mem_cons_of_mem _ hr')) hex2]
      unfold specGroupSeriesSum
      have hfz : (r :: rest).filter (fun r => r.region == k) =
          rest.filter (fun r => r.region == k) := by
        rw [List.filter_cons, if_neg hrk]
      rw [hfz]

theorem ts_outer_fold (rows : List TSRow) (L : Nat) (g : String → List Int → TSRow)
    (hlen : ∀ r ∈ rows, r.series.length = L)
    (keys : List String) (hkeys : ∀ k ∈ keys, ∃ r ∈ rows, r.region = k) :
    ∀ acc, keys.foldlM (fun acc k =>
        (match ts_group_fold k L rows none with
        | .error e => .error e
        | .ok none => .error .seriesKeyError
        | .ok (some s) => .ok (acc ++ [g k s]) : Except TAggErr (List TSRow))) acc =
      .ok (acc ++ keys.map (fun k => g k (specGroupSeriesSum rows k L))) := by
  induction keys with
  | nil =>
    intro acc
    simp [List.foldlM_nil]
    rfl
  | cons k ks ih =>
    intro acc
    rw [List.foldlM_cons]
    have hg := ts_group_fold_from_none k L rows
      (fun r hr _ => hlen r hr) (hkeys k (by simp))
    rw [hg]
    show (ks.foldlM _ (acc ++ [g k (specGroupSeriesSum rows k L)])) = _
    rw [ih (fun k' hk' => hkeys k' (List.mem_cons_of_mem _ hk'))]
    simp

/-- Counterexample to claim C7 as stated: a two-region table whose rows have
different `timeindex_start` values.  The output row for region "B" carries
`timeindex_start` = `some 0` — the value of the **table's first row**
(`df["timeindex_start"][0]` in the source) — even though the "B" group's
first (and only) row has `timeindex_start` = `some 100`. -/
theorem claim_C7_counterexample :
    df_agg_timeseries "region"
        [⟨none, "A", "x", some 0, some 2, some 1, [1, 2], none, none, none⟩,
         ⟨none, "B", "y", some 100, some 102, some 1, [3, 4], none, none, none⟩] =
      .ok [⟨none, "A", "Aggregated by region", some 0, some 2, some 1, [1, 2],
              some "-", none, none⟩,
           ⟨none, "B", "Aggregated by region", some 0, some 2, some 1, [3, 4],
              some "-", none, none⟩] ∧
    (⟨none, "B", "y", some 100, some 102, some 1, [3, 4], none, none,
        none⟩ : TSRow).timeindex_start = some 100 := by
  constructor
  · rfl
  · rfl

/-- Claim C7 as amended: `df_agg` on a timeseries-shaped table with the key
"region" groups rows by region, sums the series element-wise across each
group, and emits one row per region value (in first-occurrence order) with
`region` the key value, `var_name` "Aggregated by region", `var_unit` "-",
and the three time fields copied from the **table's first row** (not the
group's first row). -/
theorem claim_C7 (rows : List TSRow) (r0 : TSRow) (rest : List TSRow)
    (h0 : rows = r0 :: rest)
    (hlen : ∀ r ∈ rows, r.series.length = r0.series.length) :
    ∃ out, df_agg_timeseries "region" rows = .ok out ∧
      out.map (fun o => o.region) = pyDedup (rows.map (fun r => r.region)) ∧
      ∀ o ∈ out,
        o.var_name = "Aggregated by region" ∧
        o.timeindex_start = r0.timeindex_start ∧
        o.timeindex_stop = r0.timeindex_stop ∧
        o.timeindex_resolution = r0.timeindex_resolution ∧
        o.var_unit = some "-" ∧
        o.series = specGroupSeriesSum rows o.region r0.series.length := by
  have hget : (rows.map (fun r => r.get "region")) = rows.map (fun r => r.region) := by
    apply List.map_congr_left
    intro r _
    exact TSRow_get_region r
  refine ⟨(pyDedup (rows.map (fun r => r.region))).map (fun k =>
      { id_ts := none
        region := k
        var_name := "Aggregated by region"
        timeindex_start := r0.timeindex_start
        timeindex_stop := r0.timeindex_stop
        timeindex_resolution := r0.timeindex_resolution
        series := specGroupSeriesSum rows k r0.series.length
        var_unit := some "-"
        source := none
        comment := none }), ?_, ?_, ?_⟩
  · unfold df_agg_timeseries
    rw [if_pos (by decide)]
    subst h0
    show (pyDedup ((r0 :: rest).map (fun r => r.get "region"))).foldlM _ [] = _
    rw [hget]
    have hkeys : ∀ k ∈ pyDedup ((r0 :: rest).map (fun r => r.region)),
        ∃ r ∈ (r0 :: rest), r.region = k := by
      intro k hk
      rcases List.mem_map.mp ((pyDedup_mem _ _).mp hk) with ⟨r, hr, rfl⟩
      exact ⟨r, hr, rfl⟩
    have h := ts_outer_fold (r0 :: rest) r0.series.length
      (fun k s =>
        { id_ts := none
          region := k
          var_name := "Aggregated by region"
          timeindex_start := r0.timeindex_start
          timeindex_stop := r0.timeindex_stop
          timeindex_resolution := r0.timeindex_resolution
          series := s
          var_unit := some "-"
          source := none
          comment := none })
      hlen (pyDedup ((r0 :: rest).map (fun r => r.region))) hkeys []
    simpa using h
  · rw [List.map_map]
    refine Eq.trans (List.map_congr_left ?_) (List.map_id _)
    intro k _
    rfl
  · intro o ho
    rcases List.mem_map.mp ho with ⟨k, _, rfl⟩
    exact ⟨rfl, rfl, rfl, rfl, rfl, rfl⟩

/-- Witness for the amended C7 at a concrete two-region table. -/
theorem claim_C7_witness :
    ∃ out, df_agg_timeseries "region"
        [⟨none, "A", "x", some 0, some 2, some 1, [1, 2], none, none, none⟩,
         ⟨none, "A", "y", some 0, some 2, some 1, [10, 20], none, none, none⟩,
         ⟨none, "B", "z", some 0, some 2, some 1, [5, 5], none, none, none⟩] = .ok out ∧
      out.map (fun o => o.region) =
        pyDedup ([⟨none, "A", "x", some 0, some 2, some 1, [1, 2], none, none, none⟩,
          (⟨none, "A", "y", some 0, some 2, some 1, [10, 20], none, none, none⟩ : TSRow),
          ⟨none, "B", "z", some 0, some 2, some 1, [5, 5], none, none, none⟩].map
            (fun r => r.region)) ∧
      ∀ o ∈ out,
        o.var_name = "Aggregated by region" ∧
        o.timeindex_start = some 0 ∧
        o.timeindex_stop = some 2 ∧
        o.timeindex_resolution = some 1 ∧
        o.var_unit = some "-" ∧
        o.series = specGroupSeriesSum
          [⟨none, "A", "x", some 0, some 2, some 1, [1, 2], none, none, none⟩,
           ⟨none, "A", "y", some 0, some 2, some 1, [10, 20], none, none, none⟩,
           ⟨none, "B", "z", some 0, some 2, some 1, [5, 5], none, none, none⟩]
          o.region 2 :=
  claim_C7
    [⟨none, "A", "x", some 0, some 2, some 1, [1, 2], none, none, none⟩,
     ⟨none, "A", "y", some 0, some 2, some 1, [10, 20], none, none, none⟩,
     ⟨none, "B", "z", some 0, some 2, some 1, [5, 5], none, none, none⟩]
    ⟨none, "A", "x", some 0, some 2, some 1, [1, 2], none, none, none⟩
    [⟨none, "A", "y", some 0, some 2, some 1, [10, 20], none, none, none⟩,
     ⟨none, "B", "z", some 0, some 2, some 1, [5, 5], none, none, none⟩]
    rfl (by decide)

/-! ## Claim C1: the stack/unstack round trip -/

/-- Claim C1: for a stacked table whose rows share one `timeindex_start`,
one `timeindex_stop` and one (positive) `timeindex_resolution`, whose series
lengths all match the generated timestamp index (of at least three points,
so that the frequency is re-inferable), and whose variable names are
distinct, `stack_timeseries (unstack_timeseries S)` reproduces `S`'s series
value sequences element-wise and the order of its `var_name` entries (the
`source`/`comment` columns are not part of the reconstructed table). -/
theorem claim_C1 (S : List TSRow) (start stop res : Int)
    (hne : S ≠ [])
    (hres : ∀ r ∈ S, r.timeindex_resolution = some res)
    (hstart : ∀ r ∈ S, r.timeindex_start = some start)
    (hstop : ∀ r ∈ S, r.timeindex_stop = some stop)
    (hpos : 0 < res)
    (hlen : ∀ r ∈ S, r.series.length = (dateRange start stop res).length)
    (h3 : 3 ≤ (dateRange start stop res).length)
    (_hnd : (S.map (fun r => r.var_name)).Nodup) :
    ∃ w out, unstack_timeseries S = .ok w ∧ stack_timeseries w = .ok out ∧
      out.map (fun r => r.series) = S.map (fun r => r.series) ∧
      out.map (fun r => r.var_name) = S.map (fun r => r.var_name) := by
  have hcres := check_consistency_ok S "timeindex_resolution" res hne
    (fun r hr => by simpa [TSRow.timefield] using hres r hr)
  have hcstart := check_consistency_ok S "timeindex_start" start hne
    (fun r hr => by simpa [TSRow.timefield] using hstart r hr)
  have hcstop := check_consistency_ok S "timeindex_stop" stop hne
    (fun r hr => by simpa [TSRow.timefield] using hstop r hr)
  have hw : unstack_timeseries S =
      .ok ⟨true, dateRange start stop res, S.map (fun r => (r.var_name, r.series))⟩ := by
    unfold unstack_timeseries
    rw [hcres, except_bind_ok, hcstart, except_bind_ok, hcstop, except_bind_ok]
    rw [if_pos ?_]
    rw [List.all_eq_true]
    intro r hr
    rw [hlen r hr]
    exact beq_self_eq_true _
  have hse : start ≤ stop := by
    by_contra hc
    have hdr : dateRange start stop res = [] := by
      unfold dateRange
      rw [if_neg (by tauto)]
    rw [hdr] at h3
    simp at h3
  have hda : dateRange start stop res =
      arithSeq start res ((stop - start).toNat / res.toNat + 1) := by
    unfold dateRange
    rw [if_pos ⟨hpos, hse⟩]
  have hn : (dateRange start stop res).length =
      (stop - start).toNat / res.toNat + 1 := by
    rw [hda, arithSeq_length]
  have hinf : inferFreq (dateRange start stop res) = .ok (some res) := by
    rw [hda]
    exact inferFreq_arith start res _ (by omega) (by omega)
  refine ⟨⟨true, dateRange start stop res, S.map (fun r => (r.var_name, r.series))⟩,
    (S.map (fun r => (r.var_name, r.series))).map (fun c =>
      { var_name := c.1
        timeindex_start := (dateRange start stop res).headD 0
        timeindex_stop := (dateRange start stop res).getLastD 0
        timeindex_resolution := res
        series := c.2 }), hw, ?_, ?_, ?_⟩
  · unfold stack_timeseries
    rw [if_neg (by simp)]
    show (match inferFreq (dateRange start stop res) with
      | .error _ => Except.error StackErr.needAtLeastThreeDates
      | .ok none => Except.error StackErr.noFixedFrequency
      | .ok (some d) => _) = _
    rw [hinf]
  · rw [List.map_map, List.map_map]
    refine List.map_congr_left ?_
    intro r _
    rfl
  · rw [List.map_map, List.map_map]
    refine List.map_congr_left ?_
    intro r _
    rfl

/-- Witness for C1 at a concrete two-variable stacked table with three
timesteps. -/
theorem claim_C1_witness :
    ∃ w out,
      unstack_timeseries
        [⟨none, "BB", "x", some 0, some 2, some 1, [1, 2, 3], none, none, none⟩,
         ⟨none, "BE", "y", some 0, some 2, some 1, [4, 5, 6], none, none, none⟩] = .ok w ∧
      stack_timeseries w = .ok out ∧
      out.map (fun r => r.series) =
        [(⟨none, "BB", "x", some 0, some 2, some 1, [1, 2, 3], none, none,
            none⟩ : TSRow),
         ⟨none, "BE", "y", some 0, some 2, some 1, [4, 5, 6], none, none,
            none⟩].map (fun r => r.series) ∧
      out.map (fun r => r.var_name) =
        [(⟨none, "BB", "x", some 0, some 2, some 1, [1, 2, 3], none, none,
            none⟩ : TSRow),
         ⟨none, "BE", "y", some 0, some 2, some 1, [4, 5, 6], none, none,
            none⟩].map (fun r => r.var_name) :=
  claim_C1
    [⟨none, "BB", "x", some 0, some 2, some 1, [1, 2, 3], none, none, none⟩,
     ⟨none, "BE", "y", some 0, some 2, some 1, [4, 5, 6], none, none, none⟩]
    0 2 1 (by decide) (by decide) (by decide) (by decide) (by decide)
    (by decide) (by decide) (by decide)

/-! ## Claim C2: the scalar aggregation rules -/

theorem str_append_ne (p a b : String) (h : a ≠ b) : p ++ a ≠ p ++ b := by
  intro hc
  apply h
  have hd := congrArg String.data hc
  rw [String.data_append, String.data_append] at hd
  have h2 := List.append_cancel_left hd
  cases a
  cases b
  exact congrArg String.mk (by simpa using h2)

/-- Claim C2: `df_agg` on a scalar-shaped table groups rows by
(scenario, key value) and reduces each group by the semantic category of
`var_name`: (i) capacity values sum; (ii) — the claim's example — two flow
rows for the same carrier, one "in" and one "out", aggregated by carrier,
yield one row with `var_value` = in − out, `region` = "All", `tech` = "All";
(iii) flows aggregate into one bucket per energy carrier (the third
underscore-delimited segment of `var_name`) when the key is "region";
(iv) costs and (v) invest follow the in/out sign convention; (vi) losses
always sum, even when "out" occurs in the name; (vii) rows of different
scenarios stay in different groups. -/
theorem claim_C2 :
    (∀ (sc nm1 nm2 vn1 vn2 c1 c2 reg te1 te2 ty1 ty2 : String) (v1 v2 : Int),
      strContains vn1 "capacity" = true → strContains vn2 "capacity" = true →
      df_agg_scalars "region"
        [⟨none, sc, nm1, vn1, c1, reg, te1, ty1, v1, none, none, none⟩,
         ⟨none, sc, nm2, vn2, c2, reg, te2, ty2, v2, none, none, none⟩] =
      .ok [⟨none, sc, "Aggregated by region", "capacity", "All", reg, "All", "All",
            v1 + v2, some "-", none, none⟩]) ∧
    (∀ (sc nm1 nm2 vn1 vn2 c reg1 reg2 te1 te2 ty1 ty2 ec : String) (v1 v2 : Int),
      strContains vn1 "capacity" = false → strContains vn1 "flow" = true →
      (pySplit vn1 '_').get? 2 = some ec → strContains vn1 "in" = true →
      strContains vn2 "capacity" = false → strContains vn2 "flow" = true →
      (pySplit vn2 '_').get? 2 = some ec → strContains vn2 "in" = false →
      strContains vn2 "out" = true →
      df_agg_scalars "carrier"
        [⟨none, sc, nm1, vn1, c, reg1, te1, ty1, v1, none, none, none⟩,
         ⟨none, sc, nm2, vn2, c, reg2, te2, ty2, v2, none, none, none⟩] =
      .ok [⟨none, sc, "Aggregated by carrier", "flow_" ++ ec ++ "_" ++ c, c, "All",
            "All", "All", v1 - v2, some "-", none, none⟩]) ∧
    (∀ (sc nm1 nm2 vn1 vn2 c1 c2 reg te1 te2 ty1 ty2 ec1 ec2 : String) (v1 v2 : Int),
      ec1 ≠ ec2 →
      strContains vn1 "capacity" = false → strContains vn1 "flow" = true →
      (pySplit vn1 '_').get? 2 = some ec1 → strContains vn1 "in" = true →
      strContains vn2 "capacity" = false → strContains vn2 "flow" = true →
      (pySplit vn2 '_').get? 2 = some ec2 → strContains vn2 "in" = true →
      df_agg_scalars "region"
        [⟨none, sc, nm1, vn1, c1, reg, te1, ty1, v1, none, none, none⟩,
         ⟨none, sc, nm2, vn2, c2, reg, te2, ty2, v2, none, none, none⟩] =
      .ok [⟨none, sc, "Aggregated by region", "flow_" ++ ec1, "All", reg, "All",
            "All", v1, some "-", none, none⟩,
           ⟨none, sc, "Aggregated by region", "flow_" ++ ec2, "All", reg, "All",
            "All", v2, some "-", none, none⟩]) ∧
    (∀ (sc nm1 nm2 vn1 vn2 c1 c2 reg te1 te2 ty1 ty2 : String) (v1 v2 : Int),
      strContains vn1 "capacity" = false → strContains vn1 "flow" = false →
      strContains vn1 "costs" = true → strContains vn1 "in" = true →
      strContains vn2 "capacity" = false → strContains vn2 "flow" = false →
      strContains vn2 "costs" = true → strContains vn2 "in" = false →
      strContains vn2 "out" = true →
      df_agg_scalars "region"
        [⟨none, sc, nm1, vn1, c1, reg, te1, ty1, v1, none, none, none⟩,
         ⟨none, sc, nm2, vn2, c2, reg, te2, ty2, v2, none, none, none⟩] =
      .ok [⟨none, sc, "Aggregated by region", "costs", "All", reg, "All", "All",
            v1 - v2, some "-", none, none⟩]) ∧
    (∀ (sc nm1 nm2 vn1 vn2 c1 c2 reg te1 te2 ty1 ty2 : String) (v1 v2 : Int),
      strContains vn1 "capacity" = false → strContains vn1 "flow" = false →
      strContains vn1 "costs" = false → strContains vn1 "invest" = true →
      strContains vn1 "in" = true →
      strContains vn2 "capacity" = false → strContains vn2 "flow" = false →
      strContains vn2 "costs" = false → strContains vn2 "invest" = true →
      strContains vn2 "in" = false → strContains vn2 "out" = true →
      df_agg_scalars "region"
        [⟨none, sc, nm1, vn1, c1, reg, te1, ty1, v1, none, none, none⟩,
         ⟨none, sc, nm2, vn2, c2, reg, te2, ty2, v2, none, none, none⟩] =
      .ok [⟨none, sc, "Aggregated by region", "invest", "All", reg, "All", "All",
            v1 - v2, some "-", none, none⟩]) ∧
    (∀ (sc nm1 nm2 vn1 vn2 c1 c2 reg te1 te2 ty1 ty2 : String) (v1 v2 : Int),
      strContains vn1 "capacity" = false → strContains vn1 "flow" = false →
      strContains vn1 "costs" = false → strContains vn1 "invest" = false →
      strContains vn1 "losses" = true →
      strContains vn2 "capacity" = false → strContains vn2 "flow" = false →
      strContains vn2 "costs" = false → strContains vn2 "invest" = false →
      strContains vn2 "losses" = true → strContains vn2 "out" = true →
      df_agg_scalars "region"
        [⟨none, sc, nm1, vn1, c1, reg, te1, ty1, v1, none, none, none⟩,
         ⟨none, sc, nm2, vn2, c2, reg, te2, ty2, v2, none, none, none⟩] =
      .ok [⟨none, sc, "Aggregated by region", "losses", "All", reg, "All", "All",
            v1 + v2, some "-", none, none⟩]) ∧
    (∀ (sc1 sc2 nm1 nm2 vn1 vn2 c1 c2 reg te1 te2 ty1 ty2 : String) (v1 v2 : Int),
      sc1 ≠ sc2 →
      strContains vn1 "capacity" = true → strContains vn2 "capacity" = true →
      df_agg_scalars "region"
        [⟨none, sc1, nm1, vn1, c1, reg, te1, ty1, v1, none, none, none⟩,
         ⟨none, sc2, nm2, vn2, c2, reg, te2, ty2, v2, none, none, none⟩] =
      .ok [⟨none, sc1, "Aggregated by region", "capacity", "All", reg, "All", "All",
            v1, some "-", none, none⟩,
           ⟨none, sc2, "Aggregated by region", "capacity", "All", reg, "All", "All",
            v2, some "-", none, none⟩]) := by
  have er1 : ("region" == "scenario") = false := by decide
  have ec1' : ("carrier" == "scenario") = false := by decide
  have ec2' : ("carrier" == "region") = false := by decide
  have e3c : (!strContains "carrier" "carrier" && !strContains "carrier" "tech") = false := by
    decide
  have e3r : (!strContains "region" "carrier" && !strContains "region" "tech") = true := by
    decide
  refine ⟨?_, ?_, ?_, ?_, ?_, ?_, ?_⟩
  · intro sc nm1 nm2 vn1 vn2 c1 c2 reg te1 te2 ty1 ty2 v1 v2 h1 h2
    unfold df_agg_scalars
    rw [if_pos (by decide)]
    simp only [agg_group, agg_step, dictSigned, dictInit, dictAcc,
      dictGet, dictSet, emit_row, pyDedup, ScalarRow.get, List.map_cons, List.map_nil,
      List.foldl_cons, List.foldl_nil, List.foldlM_cons, List.foldlM_nil,
      h1, h2, er1, beq_self_eq_true, if_true, if_false, Bool.false_eq_true,
      Bool.true_eq_false, Option.getD_some, Option.isSome_some, Option.isSome_none]
    simp [List.foldlM_cons, List.foldlM_nil, Except.map, emit_row, except_bind_ok]
  · intro sc nm1 nm2 vn1 vn2 c reg1 reg2 te1 te2 ty1 ty2 ec v1 v2
      h1c h1f h1s h1i h2c h2f h2s h2i h2o
    unfold df_agg_scalars
    rw [if_pos (by decide)]
    simp only [agg_group, agg_step, dictSigned, dictInit, dictAcc,
      dictGet, dictSet, emit_row, pyDedup, ScalarRow.get, List.map_cons, List.map_nil,
      List.foldl_cons, List.foldl_nil, List.foldlM_cons, List.foldlM_nil,
      h1c, h1f, h1s, h1i, h2c, h2f, h2s, h2i, h2o, ec1', ec2', e3c,
      beq_self_eq_true, if_true, if_false, Bool.false_eq_true, Bool.true_eq_false,
      Option.getD_some, Option.isSome_some, Option.isSome_none]
    simp [List.foldlM_cons, List.foldlM_nil, Except.map, emit_row, except_bind_ok]
    omega
  · intro sc nm1 nm2 vn1 vn2 c1 c2 reg te1 te2 ty1 ty2 ec1 ec2 v1 v2 hne
      h1c h1f h1s h1i h2c h2f h2s h2i
    have hb : ("flow_" ++ ec1) ≠ ("flow_" ++ ec2) := str_append_ne _ _ _ hne
    have hb12 : (("flow_" ++ ec1) == ("flow_" ++ ec2)) = false :=
      beq_eq_false_iff_ne.mpr hb
    have hb21 : (("flow_" ++ ec2) == ("flow_" ++ ec1)) = false :=
      beq_eq_false_iff_ne.mpr (Ne.symm hb)
    unfold df_agg_scalars
    rw [if_pos (by decide)]
    simp only [agg_group, agg_step, dictSigned, dictInit, dictAcc,
      dictGet, dictSet, emit_row, pyDedup, ScalarRow.get, List.map_cons, List.map_nil,
      List.foldl_cons, List.foldl_nil, List.foldlM_cons, List.foldlM_nil,
      h1c, h1f, h1s, h1i, h2c, h2f, h2s, h2i, er1, e3r, hb12, hb21,
      beq_self_eq_true, if_true, if_false, Bool.false_eq_true, Bool.true_eq_false,
      Option.getD_some, Option.isSome_some, Option.isSome_none]
    simp [List.foldlM_cons, List.foldlM_nil, Except.map, emit_row, except_bind_ok]
  · intro sc nm1 nm2 vn1 vn2 c1 c2 reg te1 te2 ty1 ty2 v1 v2
      h1c h1f h1co h1i h2c h2f h2co h2i h2o
    unfold df_agg_scalars
    rw [if_pos (by decide)]
    simp only [agg_group, agg_step, dictSigned, dictInit, dictAcc,
      dictGet, dictSet, emit_row, pyDedup, ScalarRow.get, List.map_cons, List.map_nil,
      List.foldl_cons, List.foldl_nil, List.foldlM_cons, List.foldlM_nil,
      h1c, h1f, h1co, h1i, h2c, h2f, h2co, h2i, h2o, er1,
      beq_self_eq_true, if_true, if_false, Bool.false_eq_true, Bool.true_eq_false,
      Option.getD_some, Option.isSome_some, Option.isSome_none]
    simp [List.foldlM_cons, List.foldlM_nil, Except.map, emit_row, except_bind_ok]
    omega
  · intro sc nm1 nm2 vn1 vn2 c1 c2 reg te1 te2 ty1 ty2 v1 v2
      h1c h1f h1co h1inv h1i h2c h2f h2co h2inv h2i h2o
    unfold df_agg_scalars
    rw [if_pos (by decide)]
    simp only [agg_group, agg_step, dictSigned, dictInit, dictAcc,
      dictGet, dictSet, emit_row, pyDedup, ScalarRow.get, List.map_cons, List.map_nil,
      List.foldl_cons, List.foldl_nil, List.foldlM_cons, List.foldlM_nil,
      h1c, h1f, h1co, h1inv, h1i, h2c, h2f, h2co, h2inv, h2i, h2o, er1,
      beq_self_eq_true, if_true, if_false, Bool.false_eq_true, Bool.true_eq_false,
      Option.getD_some, Option.isSome_some, Option.isSome_none]
    simp [List.foldlM_cons, List.foldlM_nil, Except.map, emit_row, except_bind_ok]
    omega
  · intro sc nm1 nm2 vn1 vn2 c1 c2 reg te1 te2 ty1 ty2 v1 v2
      h1c h1f h1co h1inv h1l h2c h2f h2co h2inv h2l _h2o
    unfold df_agg_scalars
    rw [if_pos (by decide)]
    simp only [agg_group, agg_step, dictSigned, dictInit, dictAcc,
      dictGet, dictSet, emit_row, pyDedup, ScalarRow.get, List.map_cons, List.map_nil,
      List.foldl_cons, List.foldl_nil, List.foldlM_cons, List.foldlM_nil,
      h1c, h1f, h1co, h1inv, h1l, h2c, h2f, h2co, h2inv, h2l, er1,
      beq_self_eq_true, if_true, if_false, Bool.false_eq_true, Bool.true_eq_false,
      Option.getD_some, Option.isSome_some, Option.isSome_none]
    simp [List.foldlM_cons, List.foldlM_nil, Except.map, emit_row, except_bind_ok]
  · intro sc1 sc2 nm1 nm2 vn1 vn2 c1 c2 reg te1 te2 ty1 ty2 v1 v2 hsc h1 h2
    have hsc21 : ¬ sc2 = sc1 := fun h => hsc h.symm
    have b12 : (sc1 == sc2) = false := beq_eq_false_iff_ne.mpr hsc
    have b21 : (sc2 == sc1) = false := beq_eq_false_iff_ne.mpr hsc21
    unfold df_agg_scalars
    rw [if_pos (by decide)]
    simp only [agg_group, agg_step, dictSigned, dictInit, dictAcc,
      dictGet, dictSet, emit_row, pyDedup, ScalarRow.get, List.map_cons, List.map_nil,
      List.foldl_cons, List.foldl_nil, List.foldlM_cons, List.foldlM_nil,
      h1, h2, er1, b12, b21, hsc21, beq_self_eq_true, if_true, if_false,
      Bool.false_eq_true, Bool.true_eq_false, Option.getD_some, Option.isSome_some,
      Option.isSome_none]
    simp [List.foldlM_cons, List.foldlM_nil, Except.map, emit_row, except_bind_ok,
      hsc21, hsc]

/-- Witness for C2 at concrete rows, instantiating the claim's flow example
(one "in" row and one "out" row for the same carrier, aggregated by
carrier). -/
theorem claim_C2_witness :
    df_agg_scalars "carrier"
      [⟨none, "s", "n1", "flow_in_el_wind", "c", "BB", "t1", "ty", 10, none, none, none⟩,
       ⟨none, "s", "n2", "flow_out_el_pv", "c", "BE", "t2", "ty", 3, none, none, none⟩] =
    .ok [⟨none, "s", "Aggregated by carrier", "flow_" ++ "el" ++ "_" ++ "c", "c",
          "All", "All", "All", 10 - 3, some "-", none, none⟩] :=
  claim_C2.2.1 "s" "n1" "n2" "flow_in_el_wind" "flow_out_el_pv" "c" "BB" "BE"
    "t1" "t2" "ty" "ty" "el" 10 3
    (by decide) (by decide) (by decide) (by decide) (by decide) (by decide)
    (by decide) (by decide) (by decide)
